import Mathlib

/-!
# VU-ASE/core: service registry, tuning reconciliation and request handlers

A shallow embedding of `src/state/init.go`, `src/state/utils.go`,
`src/services/utils.go`, `src/server/pubsub.go` and the handlers of `src/server/reqrep.go`.

Conventions of the embedding

* A Go slice of pointers is a `List` of values; a mutation through a pointer held by the
  registry is an update of the list element; a nil-able pointer taken or returned by a
  function is an `Option`.
* `int32`, `int64` values are `Int`, `uint64` values are `Nat`; the one conversion the code
  performs, `uint64(x)` of an `int64`, is `uint64 x = (x % 2^64).toNat`.
* A `float` value is only ever copied, never computed with; it is carried as its bit pattern.
* The operating system and the clock are inputs: `alive pid` is the answer of
  `procutils.ProcessExists`, `now` is `time.Now().UnixMilli()`.
* `strings.EqualFold` is equality under simple case folding; the folding of one character to
  the representative of its case orbit is the input `fold`.
* Log statements have no effect on the state or the results and are left out.
-/

namespace Core

/-! ## Messages (`rovercom/packages/go/core`) -/

/-- Embedding of `ServiceIdentifier`: `Name` and `Pid` of a service. -/
structure ServiceIdentifier where
  Name : String
  Pid : Int
deriving DecidableEq, Repr

/-- Embedding of `ServiceEndpoint`: `Name` and `Address`. -/
structure ServiceEndpoint where
  Name : String
  Address : String
deriving DecidableEq, Repr

/-- Embedding of `ServiceOption_Type`: the three declared enum values, and `UNRECOGNIZED` for every other
number, which is what reaches the `default:` arm of the switches on `opt.Type`. -/
inductive ServiceOption_Type where
  | INT
  | FLOAT
  | STRING
  | UNRECOGNIZED
deriving DecidableEq, Repr

/-- A float value, carried as its bit pattern. -/
structure FloatValue where
  bits : Nat
deriving DecidableEq, Repr

/-- The `default` oneof of a `ServiceOption`; `unset` is the nil oneof. -/
inductive ServiceOption_Default where
  | IntDefault (v : Int)
  | FloatDefault (v : FloatValue)
  | StringDefault (v : String)
  | unset
deriving DecidableEq, Repr

/-- Embedding of `ServiceOption`: a tuning option declared by a service. -/
structure ServiceOption where
  Name : String
  Type_ : ServiceOption_Type
  Mutable : Bool
  Default : ServiceOption_Default
deriving DecidableEq, Repr

/-- Embedding of `opt.GetIntDefault()`: the value when the oneof holds an int, else the zero value. -/
def ServiceOption.GetIntDefault (opt : ServiceOption) : Int :=
  match opt.Default with
  | .IntDefault v => v
  | _ => 0

/-- Embedding of `opt.GetFloatDefault()`: the value when the oneof holds a float, else the zero value. -/
def ServiceOption.GetFloatDefault (opt : ServiceOption) : FloatValue :=
  match opt.Default with
  | .FloatDefault v => v
  | _ => ⟨0⟩

/-- Embedding of `opt.GetStringDefault()`: the value when the oneof holds a string, else the zero value. -/
def ServiceOption.GetStringDefault (opt : ServiceOption) : String :=
  match opt.Default with
  | .StringDefault v => v
  | _ => ""

/-- Embedding of `ServiceStatus` enum. -/
inductive ServiceStatus where
  | UNKNOWN
  | NOT_REGISTERED
  | REGISTERED
  | RUNNING
  | STOPPED
deriving DecidableEq, Repr

/-- Embedding of `Service`. A service held by the registry always has an `Identifier`: every path that
stores one reads `Identifier.Name` first. -/
structure Service where
  Identifier : ServiceIdentifier
  Endpoints : List ServiceEndpoint
  Options : List ServiceOption
  Status : ServiceStatus
  RegisteredAt : Int
deriving DecidableEq, Repr

/-- Embedding of `TuningState_Parameter`: the `parameter` oneof, with `unset` for the nil oneof (the case
in which `GetString_`, `GetInt` and `GetFloat` all return nil). -/
inductive TuningState_Parameter where
  | String_ (Key : String) (Value : String)
  | Int_ (Key : String) (Value : Int)
  | Float_ (Key : String) (Value : FloatValue)
  | unset
deriving DecidableEq, Repr

/-- Embedding of `TuningState`. -/
structure TuningState where
  Timestamp : Nat
  DynamicParameters : List TuningState_Parameter
deriving DecidableEq, Repr

/-- The publisher socket; only its presence matters to the code modelled here. -/
structure Socket where
  address : String
deriving DecidableEq, Repr

/-- Embedding of `state.State`. -/
structure State where
  Services : List Service
  PublisherSocket : Option Socket
  TuningState : Option TuningState
deriving DecidableEq, Repr

/-- The conversion `uint64(x)` of an `int64`. -/
def uint64 (x : Int) : Nat := (x % 2 ^ 64).toNat

/-- Embedding of `strings.EqualFold`: equality of the two strings under the case folding `fold`. -/
def EqualFold (fold : Char → Char) (s t : String) : Bool :=
  s.data.map fold == t.data.map fold

/-! ## `src/state/utils.go` -/

/-- Embedding of `findParameter`: the first parameter that holds a value and has the given key. -/
def findParameter (key : String) :
    List TuningState_Parameter → Option TuningState_Parameter
  | [] => none
  | param :: params =>
    match param with
    | .String_ k _ => if k = key then some param else findParameter key params
    | .Int_ k _ => if k = key then some param else findParameter key params
    | .Float_ k _ => if k = key then some param else findParameter key params
    | .unset => findParameter key params

/-- Embedding of `getKeyAndType`: key and type name of a parameter, two empty strings for a nil oneof. -/
def getKeyAndType (param : TuningState_Parameter) : String × String :=
  match param with
  | .String_ k _ => (k, "string")
  | .Int_ k _ => (k, "int")
  | .Float_ k _ => (k, "float")
  | .unset => ("", "")

/-- Embedding of `convertOptionToDynamicParameter`. -/
def convertOptionToDynamicParameter (opt : Option ServiceOption) :
    Option TuningState_Parameter :=
  match opt with
  | none => none
  | some opt =>
    match opt.Type_ with
    | .INT => some (.Int_ opt.Name opt.GetIntDefault)
    | .FLOAT => some (.Float_ opt.Name opt.GetFloatDefault)
    | .STRING => some (.String_ opt.Name opt.GetStringDefault)
    | .UNRECOGNIZED => none

/-- Embedding of `optionMismatchesParameter`: the keys are equal but the types are not. -/
def optionMismatchesParameter (opt : Option ServiceOption)
    (param : Option TuningState_Parameter) : Bool :=
  match opt, param with
  | some opt, some param =>
    let (key, keyType) := getKeyAndType param
    if key ≠ opt.Name then false
    else
      match opt.Type_ with
      | .INT => keyType != "int"
      | .FLOAT => keyType != "float"
      | .STRING => keyType != "string"
      | .UNRECOGNIZED => false
  | _, _ => false

/-! ## `src/procutils`, `src/services/utils.go` -/

/-- Embedding of `services.ServiceStatus`: `STOPPED` when the process does not exist, else the stored
status (the nil checks cannot fire on a service of the registry). -/
def ServiceStatus_ (alive : Int → Bool) (service : Service) : ServiceStatus :=
  if !alive service.Identifier.Pid then .STOPPED else service.Status

/-! ## `src/state/init.go` -/

/-- Embedding of `State.GetService`: the first service whose name equals `name` under case folding. -/
def GetService (fold : Char → Char) (state : State) (name : String) : Option Service :=
  state.Services.find? (fun s => EqualFold fold s.Identifier.Name name)

/-- Embedding of `State.AddService`: append (the argument is never nil here). -/
def AddService (state : State) (service : Service) : State :=
  { state with Services := state.Services ++ [service] }

/-- The loop of `State.UpdateServiceStatus` over the remaining services: the first service
matching name (under case folding) and pid gets the status and is returned. -/
def updateFirst (fold : Char → Char) (name : String) (pid : Int) (status : ServiceStatus) :
    List Service → Option (Service × List Service)
  | [] => none
  | s :: rest =>
    if EqualFold fold s.Identifier.Name name && s.Identifier.Pid == pid then
      some ({ s with Status := status }, { s with Status := status } :: rest)
    else
      match updateFirst fold name pid status rest with
      | none => none
      | some (r, rest') => some (r, s :: rest')

/-- Errors returned by the state and the handlers, one constructor per `fmt.Errorf` site,
carrying the values the message is formatted from. -/
inductive CoreError where
  | statusTargetNotFound (name : String) (pid : Int)
  | alreadyRegistered (name : String) (pid : Int)
  | optionInUse (name option owner : String) (pid : Int)
  | upsertFailed
  | noTuningState
  | noServices
  | notImplemented
  | unsupported
deriving DecidableEq, Repr

/-- Embedding of `State.UpdateServiceStatus`. -/
def UpdateServiceStatus (fold : Char → Char) (state : State) (name : String) (pid : Int)
    (status : ServiceStatus) : Except CoreError Service × State :=
  match updateFirst fold name pid status state.Services with
  | some (s, services) => (.ok s, { state with Services := services })
  | none => (.error (.statusTargetNotFound name pid), state)

/-- Embedding of `State.RemoveService`. -/
def RemoveService (fold : Char → Char) (state : State) (name : String) (pid : Int) : State :=
  let removed := fun (s : Service) => EqualFold fold s.Identifier.Name name && s.Identifier.Pid == pid
  { state with Services := state.Services.filter (fun s => !removed s) }

/-- Embedding of `State.GetServiceOption`: the first option with the given name among the services whose
process exists, with its service. -/
def GetServiceOption (alive : Int → Bool) (state : State) (key : String) :
    Option (ServiceOption × Service) :=
  state.Services.findSome? (fun s =>
    if alive s.Identifier.Pid then
      (s.Options.find? (fun o => o.Name == key)).map (fun o => (o, s))
    else none)

/-- Embedding of `State.UpdateServiceStatusses`: recompute every status, then delete the services whose
status is `STOPPED`, `NOT_REGISTERED` or `UNKNOWN`. -/
def UpdateServiceStatusses (alive : Int → Bool) (state : State) : State :=
  let updated := state.Services.map (fun s => { s with Status := ServiceStatus_ alive s })
  let delete := fun (s : Service) =>
    s.Status == .STOPPED || s.Status == .NOT_REGISTERED || s.Status == .UNKNOWN
  { state with Services := updated.filter (fun s => !delete s) }

/-- The parameters of the stored tuning state (`oldParams`), empty when there is none. -/
def oldParams (latest : Option TuningState) : List TuningState_Parameter :=
  match latest with
  | some l => l.DynamicParameters
  | none => []

/-- The condition of `GetTuningState` under which the option's own value is taken. -/
def takesOptionValue (latest : Option TuningState) (s : Service) (o : ServiceOption) : Bool :=
  let existingParam := findParameter o.Name (oldParams latest)
  !o.Mutable || existingParam.isNone ||
    (match latest with
     | none => true
     | some l => decide (uint64 s.RegisteredAt > l.Timestamp)) ||
    optionMismatchesParameter (some o) existingParam

/-- First loop of `GetTuningState`, body for one option. -/
def addOption (latest : Option TuningState) (s : Service)
    (combined : List TuningState_Parameter) (o : ServiceOption) : List TuningState_Parameter :=
  if takesOptionValue latest s o then
    match convertOptionToDynamicParameter (some o) with
    | some cvt => combined ++ [cvt]
    | none => combined
  else combined

/-- Second loop of `GetTuningState`, body for one old parameter. -/
def addOldParam (combined : List TuningState_Parameter) (op : TuningState_Parameter) :
    List TuningState_Parameter :=
  if combined.any (fun np => (getKeyAndType op).1 == (getKeyAndType np).1) then combined
  else combined ++ [op]

/-- Embedding of `State.GetTuningState`. -/
def GetTuningState (now : Int) (state : State) : TuningState :=
  let latest := state.TuningState
  let combined := state.Services.foldl (fun acc s => s.Options.foldl (addOption latest s) acc) []
  { Timestamp := uint64 now
    DynamicParameters := (oldParams latest).foldl addOldParam combined }

/-- Embedding of `State.UpdateTuningState`: stamp, drop the parameters that mismatch some option, store,
and return the combined state. -/
def UpdateTuningState (now : Int) (state : State) (ts : TuningState) : TuningState × State :=
  let invalid := fun (p : TuningState_Parameter) =>
    state.Services.any (fun s =>
      s.Options.any (fun o => optionMismatchesParameter (some o) (some p)))
  let ts' : TuningState :=
    { Timestamp := uint64 now
      DynamicParameters := ts.DynamicParameters.filter (fun p => !invalid p) }
  let state' := { state with TuningState := some ts' }
  (GetTuningState now state', state')

/-! ## `src/server/pubsub.go`, `src/server/reqrep.go` -/

/-- Embedding of `BroadcastMessage`: nothing to do and no error without a publisher; otherwise the error,
if any, of marshalling and sending, which is the input `sendErr`. -/
def BroadcastMessage (publisher : Option Socket) (sendErr : Option String) : Option String :=
  match publisher with
  | none => none
  | some _ => sendErr

/-- Embedding of `handleServiceRegistration`. -/
def handleServiceRegistration (fold : Char → Char) (alive : Int → Bool) (now : Int)
    (sendErr : Option String) (msg : Service) (state : State) :
    Except CoreError Service × State :=
  let state := UpdateServiceStatusses alive state
  let msg := { msg with Status := ServiceStatus.REGISTERED }
  let taken :=
    match GetService fold state msg.Identifier.Name with
    | some s => if alive s.Identifier.Pid then some s else none
    | none => none
  match taken with
  | some s => (.error (.alreadyRegistered msg.Identifier.Name s.Identifier.Pid), state)
  | none =>
    match msg.Options.findSome? (fun o => GetServiceOption alive state o.Name) with
    | some (existingOption, existingService) =>
      (.error (.optionInUse msg.Identifier.Name existingOption.Name
        existingService.Identifier.Name existingService.Identifier.Pid), state)
    | none =>
      let msg := { msg with RegisteredAt := now }
      let state := AddService state msg
      let _err := BroadcastMessage state.PublisherSocket sendErr
      (.ok msg, state)

/-- The assignment `service.Status = status` of `handleServiceInformationRequest`, on the
service `GetService` returns (the first whose name matches). -/
def refreshFirst (fold : Char → Char) (alive : Int → Bool) (name : String) :
    List Service → List Service
  | [] => []
  | s :: rest =>
    if EqualFold fold s.Identifier.Name name then
      { s with Status := ServiceStatus_ alive s } :: rest
    else s :: refreshFirst fold alive name rest

/-- Embedding of `handleServiceInformationRequest`; `requested` is `msg.GetRequested()`. -/
def handleServiceInformationRequest (fold : Char → Char) (alive : Int → Bool)
    (requested : Option ServiceIdentifier) (state : State) : Service × State :=
  match requested with
  | none =>
    ({ Identifier := { Name := "unknown", Pid := 0 }, Endpoints := [], Options := [],
       Status := .UNKNOWN, RegisteredAt := 0 }, state)
  | some requestedService =>
    match GetService fold state requestedService.Name with
    | none =>
      ({ Identifier := requestedService, Endpoints := [], Options := [],
         Status := .NOT_REGISTERED, RegisteredAt := 0 }, state)
    | some service =>
      ({ service with Status := ServiceStatus_ alive service },
       { state with Services := refreshFirst fold alive requestedService.Name state.Services })

/-- Embedding of `handleServiceStatusUpdate`. -/
def handleServiceStatusUpdate (fold : Char → Char) (service : ServiceIdentifier)
    (status : ServiceStatus) (state : State) : Except CoreError Service × State :=
  UpdateServiceStatus fold state service.Name service.Pid status

/-- Embedding of `handleTuningStateUpsert`. -/
def handleTuningStateUpsert (now : Int) (sendErr : Option String) (msg : TuningState)
    (state : State) : Except CoreError TuningState × State :=
  let (merged, state) := UpdateTuningState now state msg
  let mergedTuning : Option TuningState := some merged
  match mergedTuning with
  | none => (.error .upsertFailed, state)
  | some mergedTuning =>
    let _err := BroadcastMessage state.PublisherSocket sendErr
    (.ok mergedTuning, state)

/-- Embedding of `handleTuningStateRequest`. -/
def handleTuningStateRequest (now : Int) (state : State) : Except CoreError TuningState :=
  let tuning : Option TuningState := some (GetTuningState now state)
  match tuning with
  | none => .error .noTuningState
  | some tuning => .ok tuning

/-- Embedding of `handleServiceListRequest`. The registry slice is made by `make` and only ever appended
to or filtered, so it is never nil and the `No services found` branch is not taken. -/
def handleServiceListRequest (alive : Int → Bool) (state : State) :
    Except CoreError (List Service) × State :=
  let state := UpdateServiceStatusses alive state
  (.ok state.Services, state)

/-- Embedding of `handleUnimplemented`. -/
def handleUnimplemented : CoreError := .notImplemented

/-- Embedding of `handleUnsupported`. -/
def handleUnsupported : CoreError := .unsupported

/-- The inbound envelope after `proto.Unmarshal`, one constructor per arm of the switch of
`handleMessage`; `unsupported` stands for bytes that do not unmarshal and for every other
kind. -/
inductive CoreMessage where
  | Service (msg : Service)
  | ServiceInformationRequest (requested : Option ServiceIdentifier)
  | ServiceStatusUpdate (service : ServiceIdentifier) (status : ServiceStatus)
  | TuningState (ts : TuningState)
  | TuningStateRequest
  | ServiceListRequest
  | ServiceOrder
  | unsupported
deriving DecidableEq, Repr

/-- The outbound envelope of a request handled without error. -/
inductive CoreReply where
  | Service (res : Service)
  | TuningState (res : TuningState)
  | ServiceList (res : List Service)
deriving DecidableEq, Repr

/-- Embedding of `handleMessage`: the reply `Serve` sends, an error standing for the error
envelope it sends when the handler returns one, and the state after the request. -/
def handleMessage (fold : Char → Char) (alive : Int → Bool) (now : Int)
    (sendErr : Option String) (parsedMessage : CoreMessage) (state : State) :
    Except CoreError CoreReply × State :=
  match parsedMessage with
  | .Service msg =>
    match handleServiceRegistration fold alive now sendErr msg state with
    | (.ok res, state) => (.ok (.Service res), state)
    | (.error err, state) => (.error err, state)
  | .ServiceInformationRequest requested =>
    match handleServiceInformationRequest fold alive requested state with
    | (res, state) => (.ok (.Service res), state)
  | .ServiceStatusUpdate service status =>
    match handleServiceStatusUpdate fold service status state with
    | (.ok res, state) => (.ok (.Service res), state)
    | (.error err, state) => (.error err, state)
  | .TuningState ts =>
    match handleTuningStateUpsert now sendErr ts state with
    | (.ok res, state) => (.ok (.TuningState res), state)
    | (.error err, state) => (.error err, state)
  | .TuningStateRequest =>
    match handleTuningStateRequest now state with
    | .ok res => (.ok (.TuningState res), state)
    | .error err => (.error err, state)
  | .ServiceListRequest =>
    match handleServiceListRequest alive state with
    | (.ok res, state) => (.ok (.ServiceList res), state)
    | (.error err, state) => (.error err, state)
  | .ServiceOrder => (.error handleUnimplemented, state)
  | .unsupported => (.error handleUnsupported, state)

/-! ## `src/main.go` -/

/-- The state `run` hands to `server.Serve`: the core itself as only service, an empty tuning
state with timestamp 0. -/
def initialState (name : String) (pid : Int) (reqrepAddr broadcastAddr : String) : State :=
  AddService
    { Services := [], PublisherSocket := some ⟨broadcastAddr⟩,
      TuningState := some { Timestamp := 0, DynamicParameters := [] } }
    { Identifier := { Name := name, Pid := pid },
      Endpoints := [{ Name := "server", Address := reqrepAddr },
                    { Name := "broadcast", Address := broadcastAddr }],
      Options := [], Status := .RUNNING, RegisteredAt := 0 }

/-! ## Runs of the dispatcher -/

/-- One registration request as the dispatcher handles it: the message, with the answers of
the process table, the clock and the broadcast transport during that request. -/
structure Registration where
  alive : Int → Bool
  now : Int
  sendErr : Option String
  msg : Service

/-- The state after handling a sequence of registration requests one at a time. -/
def registerAll (fold : Char → Char) : State → List Registration → State
  | state, [] => state
  | state, r :: rs =>
    registerAll fold (handleServiceRegistration fold r.alive r.now r.sendErr r.msg state).2 rs

/-- The answers of the process table, the clock and the broadcast transport during one
request. -/
structure Env where
  alive : Int → Bool
  now : Int
  sendErr : Option String

/-- One step on the shared state: a request handled by the receiver loop of `Serve`, or one
pass of its periodic clean-up goroutine. Each step runs to completion before the next; the
interleaving of the two goroutines within a step is not modelled. -/
inductive Event where
  | request (env : Env) (msg : CoreMessage)
  | sweep (alive : Int → Bool)

/-- The answers of the process table during an event. -/
def Event.alive : Event → Int → Bool
  | .request env _ => env.alive
  | .sweep alive => alive

/-- The state after one event. -/
def step (fold : Char → Char) (state : State) : Event → State
  | .request env msg => (handleMessage fold env.alive env.now env.sendErr msg state).2
  | .sweep alive => UpdateServiceStatusses alive state

/-- The state after a sequence of events, handled one at a time. -/
def run (fold : Char → Char) (state : State) (events : List Event) : State :=
  events.foldl (step fold) state

/-- Every request among the events is answered without error, each in the state the earlier
events left. -/
def allSucceed (fold : Char → Char) : State → List Event → Prop
  | _, [] => True
  | state, e :: es =>
    (match e with
      | .request env msg =>
        ∃ res, (handleMessage fold env.alive env.now env.sendErr msg state).1 = .ok res
      | .sweep _ => True)
      ∧ allSucceed fold (step fold state e) es

/-- The event is a registration request or a sweep. -/
def Event.isRegistrationOrSweep : Event → Bool
  | .request _ (.Service _) => true
  | .sweep _ => true
  | _ => false

/-- The services the registration requests among the events ask to register, in order. -/
def registrations (events : List Event) : List Service :=
  events.filterMap (fun e =>
    match e with
    | .request _ (.Service msg) => some msg
    | _ => none)

/-- The services the registration requests among the events store when they succeed:
status `REGISTERED`, `RegisteredAt` the time of the request. -/
def registered (events : List Event) : List Service :=
  events.filterMap (fun e =>
    match e with
    | .request env (.Service msg) =>
      some { msg with Status := ServiceStatus.REGISTERED, RegisteredAt := env.now }
    | _ => none)

/-- The event is not a status update carrying `UNKNOWN` or `NOT_REGISTERED`. -/
def Event.reportsStoredStatus : Event → Bool
  | .request _ (.ServiceStatusUpdate _ status) =>
    !(status == .UNKNOWN || status == .NOT_REGISTERED)
  | _ => true

/-- Along the events, handled one at a time from the state: no status update arrives, and no
information request finds the process of the service it matches not alive. -/
def undisturbed (fold : Char → Char) : State → List Event → Prop
  | _, [] => True
  | state, e :: es =>
    (match e with
      | .request _ (.ServiceStatusUpdate _ _) => False
      | .request env (.ServiceInformationRequest (some requested)) =>
        ∀ s, GetService fold state requested.Name = some s → env.alive s.Identifier.Pid = true
      | _ => True)
      ∧ undisturbed fold (step fold state e) es

/-! ## Vocabulary of the statements -/

/-- Key of a parameter, as `getKeyAndType` reports it. -/
def paramKey (p : TuningState_Parameter) : String := (getKeyAndType p).1

/-- Type name of a parameter, as `getKeyAndType` reports it. -/
def paramType (p : TuningState_Parameter) : String := (getKeyAndType p).2

/-- Embedding of `services.OptionTypeToString`. -/
def OptionTypeToString (optionType : ServiceOption_Type) : String :=
  match optionType with
  | .INT => "int"
  | .FLOAT => "float"
  | .STRING => "string"
  | .UNRECOGNIZED => "unknown"

/-- Every declared option of the registry with the service declaring it, in registry order. -/
def declared (services : List Service) : List (Service × ServiceOption) :=
  services.flatMap (fun s => s.Options.map (fun o => (s, o)))

/-- The names of all declared options of the registry, in registry order. -/
def optionNames (services : List Service) : List String :=
  (declared services).map (fun d => d.2.Name)

/-- What one declared option contributes to the first loop of `GetTuningState`. -/
def contribution (latest : Option TuningState) (d : Service × ServiceOption) :
    Option TuningState_Parameter :=
  if takesOptionValue latest d.1 d.2 then convertOptionToDynamicParameter (some d.2) else none

/-- The six-rule precedence as the specification words it, for option `o` of service `s`:
the option's default when the option is not mutable (1), no stored parameter has its key (2),
there is no stored state (3), the service registered strictly later than the stored timestamp
(4) or the stored parameter has another type (5); the stored parameter otherwise (6). -/
def precedenceChoice (latest : Option TuningState) (s : Service) (o : ServiceOption) :
    Option TuningState_Parameter :=
  if o.Mutable = false then convertOptionToDynamicParameter (some o)
  else
    match latest with
    | none => convertOptionToDynamicParameter (some o)
    | some l =>
      match l.DynamicParameters.find? (fun p => paramKey p == o.Name) with
      | none => convertOptionToDynamicParameter (some o)
      | some p =>
        if l.Timestamp < uint64 s.RegisteredAt then convertOptionToDynamicParameter (some o)
        else if paramType p ≠ OptionTypeToString o.Type_ then
          convertOptionToDynamicParameter (some o)
        else some p

/-! ## Concrete inputs -/

/-- A registered service with the given name, pid, options and registration time. -/
def mkService (name : String) (pid : Int) (options : List ServiceOption) (registeredAt : Int) :
    Service :=
  { Identifier := { Name := name, Pid := pid }, Endpoints := [], Options := options,
    Status := .REGISTERED, RegisteredAt := registeredAt }

/-- The mutable Int option `speed` with default 1. -/
def speedOption : ServiceOption :=
  { Name := "speed", Type_ := .INT, Mutable := true, Default := .IntDefault 1 }

/-- A service declaring `speed`, registered at time 5. -/
def motor : Service := mkService "motor" 7 [speedOption] 5

/-- A mutable Int option with the empty name and default 1. -/
def namelessOption : ServiceOption :=
  { Name := "", Type_ := .INT, Mutable := true, Default := .IntDefault 1 }

/-- One service declaring the nameless option; the stored state, stamped 5, holds a
parameter with a nil oneof followed by the Int parameter 7 with the empty key. -/
def namelessState : State :=
  { Services := [mkService "motor" 7 [namelessOption] 0], PublisherSocket := none,
    TuningState := some { Timestamp := 5, DynamicParameters := [.unset, .Int_ "" 7] } }

/-- The service `motor`; the stored state, stamped 10, holds `speed=7`. -/
def speedState : State :=
  { Services := [motor], PublisherSocket := none,
    TuningState := some { Timestamp := 10, DynamicParameters := [.Int_ "speed" 7] } }

/-- The service `motor`; the stored state, stamped 10, holds `speed=8` and then `speed=7`. -/
def twoSpeedsState : State :=
  { Services := [motor], PublisherSocket := none,
    TuningState := some
      { Timestamp := 10, DynamicParameters := [.Int_ "speed" 8, .Int_ "speed" 7] } }

/-- Two services declaring `speed`, registered at 5 and at 20; the stored state, stamped 10,
holds `speed=7`. -/
def twoOwnersState : State :=
  { Services := [motor, mkService "servo" 8
      [{ Name := "speed", Type_ := .INT, Mutable := true, Default := .IntDefault 2 }] 20],
    PublisherSocket := none,
    TuningState := some { Timestamp := 10, DynamicParameters := [.Int_ "speed" 7] } }

/-- No service; the stored state holds two parameters with the key `gain`. -/
def twoGainsState : State :=
  { Services := [], PublisherSocket := none,
    TuningState := some
      { Timestamp := 10, DynamicParameters := [.Int_ "gain" 1, .Int_ "gain" 2] } }

/-- The service `motor` and a service declaring the String option `mode`. -/
def mixedState : State :=
  { Services := [motor, mkService "servo" 8
      [{ Name := "mode", Type_ := .STRING, Mutable := true, Default := .StringDefault "idle" }] 6],
    PublisherSocket := none,
    TuningState := some { Timestamp := 0, DynamicParameters := [] } }

/-- The services of `mixedState`; the stored state, stamped 10, holds `speed=4` and `gain=3`,
the latter of no declared option. -/
def gainState : State :=
  { Services := mixedState.Services, PublisherSocket := none,
    TuningState := some
      { Timestamp := 10, DynamicParameters := [.Int_ "speed" 4, .Int_ "gain" 3] } }

/-- Two services declaring `speed`, one as Int with default 1 and one as String with default
`slow`. -/
def twoTypesState : State :=
  { Services := [motor, mkService "servo" 8
      [{ Name := "speed", Type_ := .STRING, Mutable := true, Default := .StringDefault "slow" }] 6],
    PublisherSocket := none,
    TuningState := some { Timestamp := 0, DynamicParameters := [] } }

/-- The error kind `Conflict` of the specification: a duplicate name registration or an
option-name collision. -/
def CoreError.isConflict : CoreError → Bool
  | .alreadyRegistered _ _ => true
  | .optionInUse _ _ _ _ => true
  | _ => false

/-- The services `UpdateServiceStatusses` keeps: the process exists and the stored status is
none of `STOPPED`, `NOT_REGISTERED`, `UNKNOWN`. -/
def survives (alive : Int → Bool) (s : Service) : Bool :=
  alive s.Identifier.Pid &&
    !(s.Status == .STOPPED || s.Status == .NOT_REGISTERED || s.Status == .UNKNOWN)

/-- Some service of the list has the given name, ignoring case, and a live process. -/
def nameTaken (fold : Char → Char) (alive : Int → Bool) (services : List Service)
    (name : String) : Prop :=
  ∃ s ∈ services, EqualFold fold s.Identifier.Name name = true ∧ alive s.Identifier.Pid = true

/-- Some option of `options` has the name of an option of a service of the list with a live
process. -/
def optionTaken (alive : Int → Bool) (services : List Service)
    (options : List ServiceOption) : Prop :=
  ∃ o ∈ options, ∃ s ∈ services,
    alive s.Identifier.Pid = true ∧ ∃ o' ∈ s.Options, o'.Name = o.Name

/-- Two services with names that differ ignoring case and with no option name in common. -/
def distinct (fold : Char → Char) (a b : Service) : Prop :=
  EqualFold fold a.Identifier.Name b.Identifier.Name = false
    ∧ ∀ o ∈ a.Options, ∀ o' ∈ b.Options, o.Name ≠ o'.Name

/-- The request message as `handleServiceRegistration` stores and returns it. -/
def stamped (now : Int) (msg : Service) : Service :=
  { msg with Status := .REGISTERED, RegisteredAt := now }

/-- The Int option `gain`. -/
def gainOption : ServiceOption :=
  { Name := "gain", Type_ := .INT, Mutable := true, Default := .IntDefault 3 }

/-- The state at start-up of a core named `core` with pid 100. -/
def startState : State := initialState "core" 100 "tcp://*:5000" "tcp://*:5001"

/-- Every process exists. -/
def allAlive : Int → Bool := fun _ => true

/-- Every process but pid 1 exists. -/
def firstDead : Int → Bool := fun pid => pid != 1

/-- The state `startState` after the service `alice` (pid 1, option `gain`) registered at time 10. -/
def aliceState : State :=
  (handleServiceRegistration Char.toLower allAlive 10 none (mkService "alice" 1 [gainOption] 0)
    startState).2

/-- The state `aliceState` after `alice` reported the status `STOPPED` for itself. -/
def aliceStoppedState : State :=
  (handleServiceStatusUpdate Char.toLower { Name := "alice", Pid := 1 } .STOPPED aliceState).2

/-- The state `aliceState` after pid 1 died, the service `bob` (pid 2, option `gain`) registered at time
20, and a sweep ran. -/
def bobState : State :=
  UpdateServiceStatusses firstDead
    (handleServiceRegistration Char.toLower firstDead 20 none (mkService "bob" 2 [gainOption] 0)
      aliceState).2

/-- The start state after an upsert, at time 5, of a parameter with a nil oneof and the Int
parameter 7 with the empty key, and the registration, also at time 5, of a service declaring
the nameless option. -/
def namelessRun : State :=
  (handleServiceRegistration Char.toLower allAlive 5 none
    (mkService "motor" 7 [namelessOption] 0)
    (handleTuningStateUpsert 5 none
      { Timestamp := 0, DynamicParameters := [.unset, .Int_ "" 7] } startState).2).2

/-- A service declaring the option `gain` twice. -/
def twinService : Service := mkService "motor" 7 [gainOption, gainOption] 0

instance (fold : Char → Char) (a b : Service) : Decidable (distinct fold a b) := by
  unfold distinct
  exact inferInstance

/-- The registration of `alice` and then of `bob`, both declaring the option `gain`, every
process alive. -/
def gainClash : List Event :=
  [.request { alive := allAlive, now := 10, sendErr := none }
      (.Service (mkService "alice" 1 [gainOption] 0)),
   .request { alive := allAlive, now := 20, sendErr := none }
      (.Service (mkService "bob" 2 [gainOption] 0))]

/-- The registration of `alice` declaring `gain`, a sweep, and the registration of `bob`
declaring `speed`, every process alive. -/
def twoRegistrations : List Event :=
  [.request { alive := allAlive, now := 10, sendErr := none }
      (.Service (mkService "alice" 1 [gainOption] 0)),
   .sweep allAlive,
   .request { alive := allAlive, now := 20, sendErr := none }
      (.Service (mkService "bob" 2 [speedOption] 0))]

/-- The registration of `alice` followed by a status update in which it reports `RUNNING`,
every process alive. -/
def aliceRunning : List Event :=
  [.request { alive := allAlive, now := 10, sendErr := none }
      (.Service (mkService "alice" 1 [gainOption] 0)),
   .request { alive := allAlive, now := 20, sendErr := none }
      (.ServiceStatusUpdate { Name := "alice", Pid := 1 } .RUNNING)]

/-! # Theorems -/

/-! ## Lemmas on the two loops of `GetTuningState` -/

theorem foldl_addOption (latest : Option TuningState) (s : Service) (os : List ServiceOption)
    (acc : List TuningState_Parameter) :
    os.foldl (addOption latest s) acc
      = acc ++ (os.map (fun o => (s, o))).filterMap (contribution latest) := by
  induction os generalizing acc with
  | nil => simp
  | cons o os ih =>
    rw [List.foldl_cons, ih]
    unfold addOption contribution
    by_cases h : takesOptionValue latest s o = true
    · cases hc : convertOptionToDynamicParameter (some o) <;> simp [h, hc]
    · simp [h]

theorem foldl_services (latest : Option TuningState) (ss : List Service)
    (acc : List TuningState_Parameter) :
    ss.foldl (fun acc s => s.Options.foldl (addOption latest s) acc) acc
      = acc ++ (declared ss).filterMap (contribution latest) := by
  induction ss generalizing acc with
  | nil => simp [declared]
  | cons s ss ih =>
    rw [List.foldl_cons, ih, foldl_addOption]
    simp [declared, List.filterMap_append]

/-- The parameters `GetTuningState` returns: the contributions of the declared options, then
the old parameters passed through `addOldParam`. -/
theorem GetTuningState_parameters (now : Int) (state : State) :
    (GetTuningState now state).DynamicParameters
      = (oldParams state.TuningState).foldl addOldParam
          ((declared state.Services).filterMap (contribution state.TuningState)) := by
  simp [GetTuningState, foldl_services]

theorem paramKey_convert {o : ServiceOption} {p : TuningState_Parameter}
    (h : convertOptionToDynamicParameter (some o) = some p) : paramKey p = o.Name := by
  unfold convertOptionToDynamicParameter at h
  cases ht : o.Type_ <;> simp [ht] at h <;> subst h <;> rfl

theorem paramKey_contribution {latest : Option TuningState} {d : Service × ServiceOption}
    {p : TuningState_Parameter} (h : contribution latest d = some p) :
    paramKey p = d.2.Name := by
  unfold contribution at h
  split at h
  · exact paramKey_convert h
  · cases h

/-- Keys in the result of the second loop: those already combined keep their parameters, any
other key gets the first old parameter with that key. -/
theorem filter_foldl_addOldParam (k : String) (old acc : List TuningState_Parameter) :
    (old.foldl addOldParam acc).filter (fun p => paramKey p == k)
      = if acc.any (fun p => paramKey p == k) then acc.filter (fun p => paramKey p == k)
        else (old.find? (fun p => paramKey p == k)).toList := by
  induction old generalizing acc with
  | nil =>
    simp only [List.foldl_nil, List.find?_nil, Option.toList]
    split
    · rfl
    · rename_i h
      simp only [List.any_eq_true, not_exists, not_and] at h
      exact List.filter_eq_nil_iff.mpr (fun p hp => by simpa using h p hp)
  | cons op ops ih =>
    rw [List.foldl_cons, ih]
    unfold addOldParam
    by_cases hdup : acc.any (fun np => (getKeyAndType op).1 == (getKeyAndType np).1) = true
    · rw [if_pos hdup]
      by_cases hk : acc.any (fun p => paramKey p == k) = true
      · simp [hk]
      · rw [if_neg hk, if_neg hk]
        have hne : (paramKey op == k) = false := by
          rw [beq_eq_false_iff_ne]
          intro he
          apply hk
          simp only [List.any_eq_true, beq_iff_eq] at hdup ⊢
          obtain ⟨q, hq, hqk⟩ := hdup
          exact ⟨q, hq, by rw [paramKey, ← hqk]; exact he⟩
        simp [List.find?_cons, hne]
    · rw [if_neg hdup]
      by_cases hk : acc.any (fun p => paramKey p == k) = true
      · have hne : (paramKey op == k) = false := by
          rw [beq_eq_false_iff_ne]
          intro he
          apply hdup
          simp only [List.any_eq_true, beq_iff_eq] at hk ⊢
          obtain ⟨q, hq, hqk⟩ := hk
          exact ⟨q, hq, by rw [← paramKey, he, ← hqk]; rfl⟩
        simp [hk, List.filter_append, hne]
      · have hnil : acc.filter (fun p => paramKey p == k) = [] := by
          simp only [List.any_eq_true, not_exists, not_and] at hk
          exact List.filter_eq_nil_iff.mpr (fun p hp => by simpa using hk p hp)
        by_cases he : (paramKey op == k) = true
        · simp [List.any_append, hk, he, List.filter_append, hnil, List.find?_cons]
        · simp [List.any_append, hk, he, List.find?_cons]

theorem filter_contributions (latest : Option TuningState) (k : String)
    (L : List (Service × ServiceOption)) :
    (L.filterMap (contribution latest)).filter (fun p => paramKey p == k)
      = (L.filter (fun d => d.2.Name == k)).filterMap (contribution latest) := by
  induction L with
  | nil => rfl
  | cons d L ih =>
    cases hc : contribution latest d with
    | none =>
      by_cases hk : (d.2.Name == k) = true
      · simp [List.filterMap_cons, hc, List.filter_cons, hk, ih]
      · simp [List.filterMap_cons, hc, List.filter_cons, hk, ih]
    | some p =>
      have hp := paramKey_contribution hc
      by_cases hk : (d.2.Name == k) = true
      · simp [List.filterMap_cons, hc, List.filter_cons, hk, hp, ih]
      · simp [List.filterMap_cons, hc, List.filter_cons, hk, hp, ih]

theorem filter_name_of_nodup {L : List (Service × ServiceOption)}
    (hnd : (L.map (fun d => d.2.Name)).Nodup) {d : Service × ServiceOption} (hd : d ∈ L) :
    L.filter (fun e => e.2.Name == d.2.Name) = [d] := by
  induction L with
  | nil => cases hd
  | cons e L ih =>
    rw [List.map_cons, List.nodup_cons] at hnd
    rcases List.mem_cons.mp hd with rfl | hin
    · have hnone : L.filter (fun e => e.2.Name == d.2.Name) = [] := by
        apply List.filter_eq_nil_iff.mpr
        intro x hx hxe
        apply hnd.1
        rw [beq_iff_eq] at hxe
        rw [← hxe]
        exact List.mem_map_of_mem (fun d => d.2.Name) hx
      simp [List.filter_cons, hnone]
    · have hne : (e.2.Name == d.2.Name) = false := by
        rw [beq_eq_false_iff_ne]
        intro he
        apply hnd.1
        rw [he]
        exact List.mem_map_of_mem (fun d => d.2.Name) hin
      simp [List.filter_cons, hne, ih hnd.2 hin]

theorem mem_declared {ss : List Service} {s : Service} {o : ServiceOption} :
    (s, o) ∈ declared ss ↔ s ∈ ss ∧ o ∈ s.Options := by
  simp only [declared, List.mem_flatMap, List.mem_map, Prod.mk.injEq]
  constructor
  · rintro ⟨s', hs', o', ho', rfl, rfl⟩
    exact ⟨hs', ho'⟩
  · rintro ⟨hs, ho⟩
    exact ⟨s, hs, o, ho, rfl, rfl⟩

/-- The parameters with key `k` in the result of `GetTuningState`, when exactly one declared
option `d` has the name `k`: the contribution of `d` if there is one, else the first old
parameter with key `k`. -/
theorem GetTuningState_filter_key (now : Int) (state : State) (d : Service × ServiceOption)
    (hd : (declared state.Services).filter (fun e => e.2.Name == d.2.Name) = [d]) :
    (GetTuningState now state).DynamicParameters.filter (fun p => paramKey p == d.2.Name)
      = match contribution state.TuningState d with
        | some c => [c]
        | none =>
          ((oldParams state.TuningState).find? (fun p => paramKey p == d.2.Name)).toList := by
  rw [GetTuningState_parameters, filter_foldl_addOldParam]
  have hf := filter_contributions state.TuningState d.2.Name (declared state.Services)
  rw [hd] at hf
  cases hc : contribution state.TuningState d with
  | some c =>
    have hf' : ((declared state.Services).filterMap (contribution state.TuningState)).filter
        (fun p => paramKey p == d.2.Name) = [c] := by simpa [hc] using hf
    have hany : ((declared state.Services).filterMap (contribution state.TuningState)).any
        (fun p => paramKey p == d.2.Name) = true := by
      have hc' : c ∈ ((declared state.Services).filterMap (contribution state.TuningState)).filter
          (fun p => paramKey p == d.2.Name) := by rw [hf']; exact List.mem_singleton.mpr rfl
      rw [List.mem_filter] at hc'
      exact List.any_eq_true.mpr ⟨c, hc'.1, hc'.2⟩
    rw [if_pos hany, hf']
  | none =>
    have hf' : ((declared state.Services).filterMap (contribution state.TuningState)).filter
        (fun p => paramKey p == d.2.Name) = [] := by simpa [hc] using hf
    have hany : ¬ ((declared state.Services).filterMap (contribution state.TuningState)).any
        (fun p => paramKey p == d.2.Name) = true := by
      intro h
      obtain ⟨q, hq, hqk⟩ := List.any_eq_true.mp h
      have : q ∈ ((declared state.Services).filterMap (contribution state.TuningState)).filter
          (fun p => paramKey p == d.2.Name) := List.mem_filter.mpr ⟨hq, hqk⟩
      rw [hf'] at this
      cases this
    rw [if_neg hany]

theorem findParameter_eq_none {k : String} {l : List TuningState_Parameter}
    (h : ∀ q ∈ l, paramKey q ≠ k) : findParameter k l = none := by
  induction l with
  | nil => rfl
  | cons q l ih =>
    have hq := h q (List.mem_cons_self _ _)
    have hl := ih (fun x hx => h x (List.mem_cons_of_mem _ hx))
    cases q <;> simp_all [findParameter, paramKey, getKeyAndType]

theorem findParameter_eq_find? {k : String} {l : List TuningState_Parameter}
    (h : k = "" → ∀ q ∈ l, q ≠ .unset) :
    findParameter k l = l.find? (fun p => paramKey p == k) := by
  induction l with
  | nil => rfl
  | cons q l ih =>
    have hl := ih (fun hk x hx => h hk x (List.mem_cons_of_mem _ hx))
    cases q with
    | unset =>
      have hk : ¬ "" = k := fun hk => h hk.symm _ (List.mem_cons_self _ _) rfl
      simp [findParameter, List.find?_cons, paramKey, getKeyAndType, hk, hl]
    | String_ k' v =>
      by_cases hk : k' = k <;> simp [findParameter, List.find?_cons, paramKey, getKeyAndType, hk, hl]
    | Int_ k' v =>
      by_cases hk : k' = k <;> simp [findParameter, List.find?_cons, paramKey, getKeyAndType, hk, hl]
    | Float_ k' v =>
      by_cases hk : k' = k <;> simp [findParameter, List.find?_cons, paramKey, getKeyAndType, hk, hl]

theorem findParameter_of_find? {k : String} {l : List TuningState_Parameter}
    {p : TuningState_Parameter} (h : l.find? (fun p => paramKey p == k) = some p)
    (hp : p ≠ .unset) : findParameter k l = some p := by
  induction l with
  | nil => cases h
  | cons q l ih =>
    rw [List.find?_cons] at h
    by_cases hq : (paramKey q == k) = true
    · rw [hq] at h
      cases h
      rw [beq_iff_eq] at hq
      cases p <;> simp_all [findParameter, paramKey, getKeyAndType]
    · have hq' : (paramKey q == k) = false := by simpa using hq
      rw [hq'] at h
      have := ih h
      rw [beq_eq_false_iff_ne] at hq'
      cases q <;> simp_all [findParameter, paramKey, getKeyAndType]

theorem optionMismatchesParameter_iff (o : ServiceOption) (p : TuningState_Parameter) :
    optionMismatchesParameter (some o) (some p) = true
      ↔ paramKey p = o.Name ∧ o.Type_ ≠ .UNRECOGNIZED
          ∧ paramType p ≠ OptionTypeToString o.Type_ := by
  unfold optionMismatchesParameter paramKey paramType OptionTypeToString
  by_cases hk : (getKeyAndType p).1 = o.Name
  · cases ht : o.Type_ <;> simp [hk, ht]
  · simp [hk]

theorem paramType_convert {o : ServiceOption} {p : TuningState_Parameter}
    (h : convertOptionToDynamicParameter (some o) = some p) :
    paramType p = OptionTypeToString o.Type_ := by
  unfold convertOptionToDynamicParameter at h
  cases ht : o.Type_ <;> simp [ht] at h <;> subst h <;> rfl

theorem convert_isSome {o : ServiceOption} (h : o.Type_ ≠ .UNRECOGNIZED) :
    ∃ c, convertOptionToDynamicParameter (some o) = some c := by
  unfold convertOptionToDynamicParameter
  cases ht : o.Type_ <;> simp_all

/-- For an option with a name, or on a stored state without nil-oneof parameters, the
condition of the code and the precedence of the specification select the same parameter. -/
theorem contribution_or_stored (latest : Option TuningState) (s : Service) (o : ServiceOption)
    (hset : o.Name = "" → ∀ p ∈ oldParams latest, p ≠ .unset) (hvalid : o.Type_ ≠ .UNRECOGNIZED) :
    ∃ p, precedenceChoice latest s o = some p ∧
      (match contribution latest (s, o) with
        | some c => [c]
        | none => ((oldParams latest).find? (fun q => paramKey q == o.Name)).toList) = [p] := by
  obtain ⟨c, hc⟩ := convert_isSome hvalid
  unfold contribution takesOptionValue precedenceChoice
  rw [findParameter_eq_find? hset]
  simp only [hc]
  cases hm : o.Mutable with
  | false => exact ⟨c, by simp⟩
  | true =>
    cases latest with
    | none => exact ⟨c, by simp [oldParams]⟩
    | some l =>
      simp only [oldParams]
      rcases Option.eq_none_or_eq_some
        (l.DynamicParameters.find? (fun q => paramKey q == o.Name)) with hf | ⟨p, hf⟩
      · exact ⟨c, by simp [hf]⟩
      · have hkey : paramKey p = o.Name := by
          have := List.find?_some hf
          simpa using this
        by_cases hlate : l.Timestamp < uint64 s.RegisteredAt
        · exact ⟨c, by simp [hf, hlate]⟩
        · by_cases hty : paramType p = OptionTypeToString o.Type_
          · have hmm : optionMismatchesParameter (some o) (some p) = false := by
              rw [Bool.eq_false_iff, Ne, optionMismatchesParameter_iff]
              intro h
              exact h.2.2 hty
            exact ⟨p, by simp [hf, hlate, hty, hmm]⟩
          · have hmm : optionMismatchesParameter (some o) (some p) = true :=
              (optionMismatchesParameter_iff o p).mpr ⟨hkey, hvalid, hty⟩
            exact ⟨c, by simp [hf, hlate, hty, hmm]⟩

theorem filter_declared_eq_nil {ss : List Service} {k : String}
    (h : ∀ s ∈ ss, ∀ o ∈ s.Options, o.Name ≠ k) :
    (declared ss).filter (fun e => e.2.Name == k) = [] := by
  apply List.filter_eq_nil_iff.mpr
  rintro ⟨s, o⟩ hd hk
  rw [mem_declared] at hd
  exact h s hd.1 o hd.2 (by simpa using hk)

theorem filter_declared_split {pre post : List Service} {s : Service} {k : String}
    (hother : ∀ s' ∈ pre ++ post, ∀ o' ∈ s'.Options, o'.Name ≠ k) :
    (declared (pre ++ s :: post)).filter (fun e => e.2.Name == k)
      = ((s.Options.filter (fun o => o.Name == k)).map (fun o => (s, o))) := by
  have hpre : (declared pre).filter (fun e => e.2.Name == k) = [] :=
    filter_declared_eq_nil (fun s' hs' => hother s' (List.mem_append_left _ hs'))
  have hpost : (declared post).filter (fun e => e.2.Name == k) = [] :=
    filter_declared_eq_nil (fun s' hs' => hother s' (List.mem_append_right _ hs'))
  have hsplit : declared (pre ++ s :: post)
      = declared pre ++ (s.Options.map (fun o => (s, o)) ++ declared post) := by
    simp [declared, List.flatMap_append, List.flatMap_cons]
  rw [hsplit, List.filter_append, List.filter_append, hpre, hpost, List.nil_append,
    List.append_nil, List.filter_map]
  rfl

/-- The parameters with the key of a mutable option whose stored parameter has the option's
type: the stored parameter, unless the service registered after the stored timestamp. -/
theorem GetTuningState_mutable_stored (now : Int) (state : State) (s : Service)
    (o : ServiceOption) (l : TuningState) (p : TuningState_Parameter)
    (hd : (declared state.Services).filter (fun e => e.2.Name == o.Name) = [(s, o)])
    (hm : o.Mutable = true) (hl : state.TuningState = some l)
    (hf : l.DynamicParameters.find? (fun q => paramKey q == o.Name) = some p)
    (hty : paramType p = OptionTypeToString o.Type_) :
    ∃ c, convertOptionToDynamicParameter (some o) = some c ∧
      (GetTuningState now state).DynamicParameters.filter (fun q => paramKey q == o.Name)
        = [if l.Timestamp < uint64 s.RegisteredAt then c else p] := by
  have hvalid : o.Type_ ≠ .UNRECOGNIZED := by
    intro h
    rw [h] at hty
    cases p <;> simp [paramType, getKeyAndType, OptionTypeToString] at hty
  have hp : p ≠ .unset := by
    rintro rfl
    cases ht : o.Type_ <;> simp [ht, paramType, getKeyAndType, OptionTypeToString] at hty
  obtain ⟨c, hc⟩ := convert_isSome hvalid
  refine ⟨c, hc, ?_⟩
  have hfp : findParameter o.Name l.DynamicParameters = some p := findParameter_of_find? hf hp
  have hmm : optionMismatchesParameter (some o) (some p) = false := by
    rw [Bool.eq_false_iff, Ne, optionMismatchesParameter_iff]
    intro h
    exact h.2.2 hty
  have hkey := GetTuningState_filter_key now state (s, o) hd
  rw [hkey, hl]
  unfold contribution takesOptionValue
  simp only [oldParams, hfp, hm, hmm, hc]
  by_cases hlate : l.Timestamp < uint64 s.RegisteredAt
  · simp [hlate]
  · simp [hlate, hf]

/-! ## C1: the six-rule precedence -/

/-- C1 (as stated, refuted): the registry of `namelessState` has pairwise distinct option names
of type Int, the option is mutable and its service registered before the stored timestamp,
yet `GetTuningState` returns the nil-oneof parameter alone: the result holds neither the
option's default, which the precedence selects, nor the stored Int parameter. The same
result is reached from the start state by an upsert of these two parameters and the
registration of the service within the same millisecond. -/
theorem GetTuningState_precedence_fails_on_nil_oneof :
    ((optionNames namelessState.Services).Nodup
      ∧ (∀ s ∈ namelessState.Services, ∀ o ∈ s.Options,
          o.Type_ = .INT ∨ o.Type_ = .FLOAT ∨ o.Type_ = .STRING)
      ∧ namelessOption ∈ (mkService "motor" 7 [namelessOption] 0).Options
      ∧ (GetTuningState 9 namelessState).DynamicParameters = [.unset]
      ∧ precedenceChoice namelessState.TuningState (mkService "motor" 7 [namelessOption] 0)
          namelessOption = some (.Int_ "" 1))
      ∧ handleTuningStateRequest 9 namelessRun
          = .ok { Timestamp := 9, DynamicParameters := [.unset] } :=
  ⟨by decide, rfl⟩

/-- C1 (amended): for every registry whose declared option names are pairwise distinct and of
type Int, Float or String, every stored tuning state and every clock value, and for every
declared option `o` of a service `s` whose name is not empty (or, when it is, provided no
stored parameter has a nil oneof), the result of `GetTuningState` contains exactly one
parameter with key `o.Name`, and it is the one the six-rule precedence selects: the default
of `o` when `o` is not mutable, or no stored parameter has the key, or there is no stored
state, or `s.RegisteredAt` (as the code converts it, `uint64 RegisteredAt`) is strictly later
than the stored timestamp, or the first stored parameter with the key has another type; the
first stored parameter with the key otherwise. -/
theorem GetTuningState_precedence (now : Int) (state : State)
    (hnames : (optionNames state.Services).Nodup)
    (htypes : ∀ s ∈ state.Services, ∀ o ∈ s.Options,
      o.Type_ = .INT ∨ o.Type_ = .FLOAT ∨ o.Type_ = .STRING)
    (s : Service) (hs : s ∈ state.Services) (o : ServiceOption) (ho : o ∈ s.Options)
    (hset : o.Name = "" → ∀ p ∈ oldParams state.TuningState, p ≠ .unset) :
    ∃ p, precedenceChoice state.TuningState s o = some p
      ∧ (GetTuningState now state).DynamicParameters.filter (fun q => paramKey q == o.Name)
          = [p] := by
  have hvalid : o.Type_ ≠ .UNRECOGNIZED := by
    rcases htypes s hs o ho with h | h | h <;> simp [h]
  have hd : (declared state.Services).filter (fun e => e.2.Name == o.Name) = [(s, o)] :=
    filter_name_of_nodup hnames (mem_declared.mpr ⟨hs, ho⟩)
  obtain ⟨p, hp, hsel⟩ := contribution_or_stored state.TuningState s o hset hvalid
  refine ⟨p, hp, ?_⟩
  rw [GetTuningState_filter_key now state (s, o) hd]
  exact hsel

/-- C1 (amended), at `speedState`: the stored `speed=7` is the only parameter with key
`speed`. -/
theorem GetTuningState_precedence_witness :
    ∃ p, precedenceChoice speedState.TuningState motor speedOption = some p
      ∧ (GetTuningState 11 speedState).DynamicParameters.filter
          (fun q => paramKey q == speedOption.Name) = [p] :=
  GetTuningState_precedence 11 speedState (by decide) (by decide)
    motor (by decide) speedOption (by decide) (by decide)

/-! ## C2: a non-mutable option always yields its default -/

/-- C2: for every registry containing a service whose single option is the non-mutable Int
option `k` with default 5, no other service declaring an option named `k`, and for every
stored tuning state (or none) and clock value, the only parameter with key `k` in the result
of `GetTuningState` is `Int{k, 5}`. -/
theorem GetTuningState_nonmutable_default (now : Int) (state : State)
    (pre post : List Service) (s : Service) (k : String)
    (hreg : state.Services = pre ++ s :: post)
    (hopt : s.Options = [{ Name := k, Type_ := .INT, Mutable := false, Default := .IntDefault 5 }])
    (hother : ∀ s' ∈ pre ++ post, ∀ o' ∈ s'.Options, o'.Name ≠ k) :
    (GetTuningState now state).DynamicParameters.filter (fun p => paramKey p == k)
      = [.Int_ k 5] := by
  have hd := @filter_declared_split pre post s k hother
  rw [← hreg, hopt] at hd
  simp only [List.filter_cons, beq_self_eq_true, if_true, List.filter_nil, List.map_cons,
    List.map_nil] at hd
  have hkey := GetTuningState_filter_key now state
    (s, { Name := k, Type_ := .INT, Mutable := false, Default := .IntDefault 5 }) hd
  simp only [] at hkey
  rw [hkey]
  simp [contribution, takesOptionValue, convertOptionToDynamicParameter,
    ServiceOption.GetIntDefault]

/-- C2, at a registry of two services and a stored state overriding `limit` three times. -/
theorem GetTuningState_nonmutable_default_witness :
    (GetTuningState 11
        { Services := [motor, mkService "servo" 8
            [{ Name := "limit", Type_ := .INT, Mutable := false, Default := .IntDefault 5 }] 6],
          PublisherSocket := none,
          TuningState := some { Timestamp := 10, DynamicParameters :=
            [.Int_ "limit" 9, .String_ "limit" "x", .Float_ "limit" ⟨3⟩] } }).DynamicParameters.filter
        (fun p => paramKey p == "limit") = [.Int_ "limit" 5] :=
  GetTuningState_nonmutable_default 11 _ [motor] []
    (mkService "servo" 8
      [{ Name := "limit", Type_ := .INT, Mutable := false, Default := .IntDefault 5 }] 6)
    "limit" rfl rfl (by decide)

/-! ## C3: registration time against the stored timestamp -/

/-- C3 (as stated, refuted). In `twoSpeedsState` the service registered at 5, before the stored
timestamp 10, and the stored state holds the Int parameter `speed=7`, yet the result holds
`speed=8` and no `speed=7`; that stored state is what an upsert of `speed=8, speed=7` at time
10 installs. In `twoOwnersState` the same service and stored `speed=7` yield `speed=2`, the
default of a second service declaring `speed`. -/
theorem GetTuningState_stored_not_kept :
    (speedOption ∈ motor.Options ∧ motor ∈ twoSpeedsState.Services
        ∧ TuningState_Parameter.Int_ "speed" 7 ∈ oldParams twoSpeedsState.TuningState
        ∧ uint64 motor.RegisteredAt < 10
        ∧ (GetTuningState 11 twoSpeedsState).DynamicParameters = [.Int_ "speed" 8]
        ∧ (UpdateTuningState 10 { twoSpeedsState with TuningState := none }
            { Timestamp := 0, DynamicParameters := [.Int_ "speed" 8, .Int_ "speed" 7] }).2
            = twoSpeedsState)
      ∧ (motor ∈ twoOwnersState.Services
        ∧ oldParams twoOwnersState.TuningState = [.Int_ "speed" 7]
        ∧ (GetTuningState 11 twoOwnersState).DynamicParameters = [.Int_ "speed" 2]) := by
  decide

/-- C3 (amended). Generally: for a mutable option `o` of a service `s`, no other declared
option having its name, and a stored state whose first parameter `p` with that key has the
type of `o`, the only parameter with that key in the result of `GetTuningState` is `p` when
`s.RegisteredAt` is not strictly later than the stored timestamp, and the default of `o` when
it is. In particular, for the mutable Int option `speed` of default 1 and a stored state with
timestamp `T` whose first parameter with key `speed` is `speed=7`: `speed=7` alone when
`RegisteredAt < T`, `speed=1` alone when `RegisteredAt > T`. (`RegisteredAt` is compared as
the code converts it, `uint64 RegisteredAt`.) -/
theorem GetTuningState_registeredAt_rule :
    (∀ (now : Int) (state : State) (s : Service) (o : ServiceOption) (l : TuningState)
        (p : TuningState_Parameter),
        (declared state.Services).filter (fun e => e.2.Name == o.Name) = [(s, o)] →
        o.Mutable = true →
        state.TuningState = some l →
        l.DynamicParameters.find? (fun q => paramKey q == o.Name) = some p →
        paramType p = OptionTypeToString o.Type_ →
        ∃ c, convertOptionToDynamicParameter (some o) = some c ∧
          (GetTuningState now state).DynamicParameters.filter (fun q => paramKey q == o.Name)
            = [if l.Timestamp < uint64 s.RegisteredAt then c else p])
      ∧ (∀ (now : Int) (state : State) (s : Service) (l : TuningState),
        (declared state.Services).filter (fun e => e.2.Name == "speed") = [(s, speedOption)] →
        state.TuningState = some l →
        l.DynamicParameters.find? (fun q => paramKey q == "speed") = some (.Int_ "speed" 7) →
        (uint64 s.RegisteredAt < l.Timestamp →
          (GetTuningState now state).DynamicParameters.filter (fun q => paramKey q == "speed")
            = [.Int_ "speed" 7])
        ∧ (l.Timestamp < uint64 s.RegisteredAt →
          (GetTuningState now state).DynamicParameters.filter (fun q => paramKey q == "speed")
            = [.Int_ "speed" 1])) := by
  refine ⟨GetTuningState_mutable_stored, ?_⟩
  intro now state s l hd hl hf
  obtain ⟨c, hc, hres⟩ :=
    GetTuningState_mutable_stored now state s speedOption l (.Int_ "speed" 7) hd rfl hl hf rfl
  have hc' : c = .Int_ "speed" 1 := by
    have : convertOptionToDynamicParameter (some speedOption) = some (.Int_ "speed" 1) := rfl
    rw [this] at hc
    exact (Option.some.inj hc).symm
  subst hc'
  have hres' : (GetTuningState now state).DynamicParameters.filter
      (fun q => paramKey q == "speed")
      = [if l.Timestamp < uint64 s.RegisteredAt then .Int_ "speed" 1 else .Int_ "speed" 7] :=
    hres
  constructor
  · intro hlt
    rw [hres', if_neg (Nat.lt_asymm hlt)]
  · intro hlt
    rw [hres', if_pos hlt]

/-- C3 (amended), at `speedState` (registered at 5, stored timestamp 10): `speed=7` alone. -/
theorem GetTuningState_registeredAt_rule_witness :
    (GetTuningState 11 speedState).DynamicParameters.filter (fun q => paramKey q == "speed")
      = [.Int_ "speed" 7] :=
  (GetTuningState_registeredAt_rule.2 11 speedState motor
    { Timestamp := 10, DynamicParameters := [.Int_ "speed" 7] }
    (by decide) rfl (by decide)).1 (by decide)

/-! ## C4: stored parameters of undeclared options are carried forward -/

/-- C4 (as stated, refuted): in `twoGainsState` no service declares an option, the stored state
holds `gain=2`, and the result of `GetTuningState` does not contain it. -/
theorem GetTuningState_drops_repeated_key :
    TuningState_Parameter.Int_ "gain" 2 ∈ oldParams twoGainsState.TuningState
      ∧ (∀ s ∈ twoGainsState.Services, ∀ o ∈ s.Options, o.Name ≠ "gain")
      ∧ TuningState_Parameter.Int_ "gain" 2
          ∉ (GetTuningState 11 twoGainsState).DynamicParameters := by
  decide

theorem mem_foldl_addOldParam {x : TuningState_Parameter}
    (old : List TuningState_Parameter) {acc : List TuningState_Parameter} (hx : x ∈ acc) :
    x ∈ old.foldl addOldParam acc := by
  induction old generalizing acc with
  | nil => exact hx
  | cons op ops ih =>
    rw [List.foldl_cons]
    apply ih
    unfold addOldParam
    split
    · exact hx
    · exact List.mem_append_left _ hx

/-- C4 (amended): for every registry and every stored tuning state, every stored parameter
whose key is not the name of any declared option, and which is the first stored parameter
with its key, is in the result of `GetTuningState` unchanged. -/
theorem GetTuningState_carries_undeclared (now : Int) (state : State)
    (p : TuningState_Parameter)
    (hfirst : (oldParams state.TuningState).find? (fun q => paramKey q == paramKey p) = some p)
    (hfree : ∀ s ∈ state.Services, ∀ o ∈ s.Options, o.Name ≠ paramKey p) :
    p ∈ (GetTuningState now state).DynamicParameters := by
  have hmem : p ∈ (GetTuningState now state).DynamicParameters.filter
      (fun q => paramKey q == paramKey p) := by
    rw [GetTuningState_parameters, filter_foldl_addOldParam, if_neg, hfirst]
    · exact List.mem_singleton.mpr rfl
    · intro hany
      obtain ⟨q, hq, hqk⟩ := List.any_eq_true.mp hany
      obtain ⟨⟨s, o⟩, hd, hc⟩ := List.mem_filterMap.mp hq
      rw [mem_declared] at hd
      have := paramKey_contribution hc
      rw [beq_iff_eq] at hqk
      exact hfree s hd.1 o hd.2 (by rw [← hqk]; exact this.symm)
  exact (List.mem_filter.mp hmem).1

/-- C4 (amended), at `gainState`: the stored `gain=3` is carried. -/
theorem GetTuningState_carries_undeclared_witness :
    TuningState_Parameter.Int_ "gain" 3 ∈ (GetTuningState 11 gainState).DynamicParameters :=
  GetTuningState_carries_undeclared 11 gainState (.Int_ "gain" 3) (by decide) (by decide)

/-! ## C5, C6: `UpdateTuningState` -/

theorem any_services_eq_any_declared (ss : List Service) (f : ServiceOption → Bool) :
    ss.any (fun s => s.Options.any f) = (declared ss).any (fun d => f d.2) := by
  induction ss with
  | nil => rfl
  | cons s ss ih =>
    have hsplit : declared (s :: ss) = s.Options.map (fun o => (s, o)) ++ declared ss := by
      simp [declared, List.flatMap_cons]
    rw [hsplit, List.any_append, List.any_cons, ih]
    congr 1
    induction s.Options with
    | nil => rfl
    | cons o os iho => simp [List.any_cons, iho]

/-- What `UpdateTuningState` stores and returns. -/
theorem UpdateTuningState_eq (now : Int) (state : State) (ts : TuningState) :
    (UpdateTuningState now state ts).2
        = { state with
            TuningState := some (TuningState.mk (uint64 now)
              (ts.DynamicParameters.filter (fun p =>
                !(declared state.Services).any (fun d =>
                  optionMismatchesParameter (some d.2) (some p))))) }
      ∧ (UpdateTuningState now state ts).1
        = GetTuningState now (UpdateTuningState now state ts).2 := by
  constructor
  · simp only [UpdateTuningState, any_services_eq_any_declared]
  · rfl

/-- C5 (as stated, refuted). In `mixedState` the new state `speed=7, speed="fast"` loses the
String parameter, which mismatches the Int option `speed`, and the effective state holds
`speed=7`, not the option's default `speed=1`. In `twoTypesState`, where a second service
declares `speed` as String, the new state `speed="fast"` is dropped and the effective state
holds the String parameter `speed="slow"`. -/
theorem UpdateTuningState_default_missing :
    ((UpdateTuningState 10 mixedState
          { Timestamp := 0, DynamicParameters := [.Int_ "speed" 7, .String_ "speed" "fast"] }).1
        = { Timestamp := 10,
            DynamicParameters := [.String_ "mode" "idle", .Int_ "speed" 7] })
      ∧ ((UpdateTuningState 10 twoTypesState
          { Timestamp := 0, DynamicParameters := [.String_ "speed" "fast"] }).1
        = { Timestamp := 10,
            DynamicParameters := [.Int_ "speed" 1, .String_ "speed" "slow"] }) := by
  decide

/-- C5 (amended): for every registry and every new tuning state, `UpdateTuningState` drops from
the stored state every parameter whose key equals the name of a declared option of a
different type (Int, Float or String); when the keys of the new state are pairwise distinct
the effective state it returns contains that option's default for the key; and when the
declared option names are pairwise distinct the effective state contains no parameter of the
mismatching type with that key. -/
theorem UpdateTuningState_drops_mismatch (now : Int) (state : State) (ts : TuningState)
    (p : TuningState_Parameter) (s : Service) (o : ServiceOption)
    (hp : p ∈ ts.DynamicParameters) (hs : s ∈ state.Services) (ho : o ∈ s.Options)
    (hkey : paramKey p = o.Name)
    (hvalid : o.Type_ = .INT ∨ o.Type_ = .FLOAT ∨ o.Type_ = .STRING)
    (hty : paramType p ≠ OptionTypeToString o.Type_) :
    p ∉ oldParams (UpdateTuningState now state ts).2.TuningState
      ∧ ((ts.DynamicParameters.map paramKey).Nodup →
          ∃ c, convertOptionToDynamicParameter (some o) = some c
            ∧ c ∈ (UpdateTuningState now state ts).1.DynamicParameters)
      ∧ ((optionNames state.Services).Nodup →
          ∀ q ∈ (UpdateTuningState now state ts).1.DynamicParameters,
            paramKey q = o.Name → paramType q ≠ paramType p) := by
  have hvalid' : o.Type_ ≠ .UNRECOGNIZED := by
    rcases hvalid with h | h | h <;> simp [h]
  obtain ⟨hstore, hret⟩ := UpdateTuningState_eq now state ts
  have hmis : optionMismatchesParameter (some o) (some p) = true :=
    (optionMismatchesParameter_iff o p).mpr ⟨hkey, hvalid', hty⟩
  have hdecl : (s, o) ∈ declared state.Services := mem_declared.mpr ⟨hs, ho⟩
  -- membership in the stored parameters
  have hold : ∀ q, q ∈ oldParams (UpdateTuningState now state ts).2.TuningState ↔
      q ∈ ts.DynamicParameters ∧ ∀ d ∈ declared state.Services,
        optionMismatchesParameter (some d.2) (some q) = false := by
    intro q
    rw [hstore]
    simp [oldParams, List.mem_filter]
  have hdrop : p ∉ oldParams (UpdateTuningState now state ts).2.TuningState := by
    intro hin
    have := ((hold p).mp hin).2 (s, o) hdecl
    rw [hmis] at this
    cases this
  have hsv : (UpdateTuningState now state ts).2.Services = state.Services := by
    rw [hstore]
  refine ⟨hdrop, ?_, ?_⟩
  · intro hnd
    obtain ⟨c, hc⟩ := convert_isSome hvalid'
    refine ⟨c, hc, ?_⟩
    have hnokey : ∀ q ∈ oldParams (UpdateTuningState now state ts).2.TuningState,
        paramKey q ≠ o.Name := by
      intro q hq hqk
      have hqin := ((hold q).mp hq).1
      have hqp : q = p := List.inj_on_of_nodup_map hnd hqin hp (hqk.trans hkey.symm)
      exact hdrop (hqp ▸ hq)
    have hnone := findParameter_eq_none hnokey
    have hcon : contribution (UpdateTuningState now state ts).2.TuningState (s, o) = some c := by
      unfold contribution takesOptionValue
      simp [hnone, hc]
    rw [hret, GetTuningState_parameters]
    apply mem_foldl_addOldParam
    rw [hsv]
    exact List.mem_filterMap.mpr ⟨(s, o), hdecl, hcon⟩
  · intro hnd q hq hqk
    have hd : (declared (UpdateTuningState now state ts).2.Services).filter
        (fun e => e.2.Name == o.Name) = [(s, o)] := by
      rw [hsv]
      exact filter_name_of_nodup hnd hdecl
    have hfil := GetTuningState_filter_key now (UpdateTuningState now state ts).2 (s, o) hd
    have hqf : q ∈ (GetTuningState now (UpdateTuningState now state ts).2).DynamicParameters.filter
        (fun x => paramKey x == o.Name) := by
      rw [← hret]
      exact List.mem_filter.mpr ⟨hq, by simpa using hqk⟩
    rw [hfil] at hqf
    have hqty : paramType q = OptionTypeToString o.Type_ := by
      cases hc : contribution (UpdateTuningState now state ts).2.TuningState (s, o) with
      | some c =>
        rw [hc] at hqf
        have hqc : q = c := List.mem_singleton.mp hqf
        subst hqc
        unfold contribution at hc
        split at hc
        · exact paramType_convert hc
        · cases hc
      | none =>
        rw [hc] at hqf
        have hfind : (oldParams (UpdateTuningState now state ts).2.TuningState).find?
            (fun x => paramKey x == o.Name) = some q := by
          simpa [Option.mem_toList] using hqf
        have hqold := List.mem_of_find?_eq_some hfind
        have hnm := ((hold q).mp hqold).2 (s, o) hdecl
        by_contra hne
        have := (optionMismatchesParameter_iff o q).mpr ⟨hqk, hvalid', hne⟩
        rw [hnm] at this
        cases this
    rw [hqty]
    exact fun h => hty h.symm

/-- C5 (amended), at `mixedState` and the new state `speed="fast"`: the parameter is dropped
and the effective state holds the default `speed=1`. -/
theorem UpdateTuningState_drops_mismatch_witness :
    TuningState_Parameter.String_ "speed" "fast" ∉ oldParams (UpdateTuningState 10 mixedState
        { Timestamp := 0, DynamicParameters := [.String_ "speed" "fast"] }).2.TuningState
      ∧ TuningState_Parameter.Int_ "speed" 1 ∈ (UpdateTuningState 10 mixedState
        { Timestamp := 0, DynamicParameters := [.String_ "speed" "fast"] }).1.DynamicParameters :=
  have h := UpdateTuningState_drops_mismatch 10 mixedState
    { Timestamp := 0, DynamicParameters := [.String_ "speed" "fast"] }
    (.String_ "speed" "fast") motor speedOption (by decide) (by decide) (by decide) rfl
    (by decide) (by decide)
  ⟨h.1, by
    obtain ⟨c, hc, hin⟩ := h.2.1 (by decide)
    have : c = .Int_ "speed" 1 := (Option.some.inj hc).symm
    exact this ▸ hin⟩

/-- C6: `UpdateTuningState` replaces the stored tuning state wholesale: the stored state after
the call is stamped with the current time and holds exactly the parameters of the new state
that mismatch no declared option, in their order; whatever state was stored before, the new
stored state and the returned effective state are the same. -/
theorem UpdateTuningState_replaces (now : Int) (state : State) (ts : TuningState) :
    (UpdateTuningState now state ts).2.TuningState
        = some (TuningState.mk (uint64 now)
            (ts.DynamicParameters.filter (fun p =>
              !(declared state.Services).any (fun d =>
                optionMismatchesParameter (some d.2) (some p)))))
      ∧ (∀ previous : Option TuningState,
          UpdateTuningState now { state with TuningState := previous } ts
            = UpdateTuningState now state ts)
      ∧ (UpdateTuningState now state ts).1
          = GetTuningState now (UpdateTuningState now state ts).2 := by
  refine ⟨?_, fun previous => rfl, rfl⟩
  rw [(UpdateTuningState_eq now state ts).1]

/-! ## The sweep and the registration handler -/

theorem EqualFold_comm (fold : Char → Char) (a b : String) :
    EqualFold fold a b = EqualFold fold b a := by
  unfold EqualFold
  rw [Bool.eq_iff_iff]
  simp only [beq_iff_eq]
  exact eq_comm

/-- The sweep `UpdateServiceStatusses` keeps exactly the surviving services, as they are. -/
theorem UpdateServiceStatusses_services (alive : Int → Bool) (state : State) :
    (UpdateServiceStatusses alive state).Services = state.Services.filter (survives alive) := by
  unfold UpdateServiceStatusses
  simp only
  induction state.Services with
  | nil => rfl
  | cons s ss ih =>
    rw [List.map_cons, List.filter_cons, List.filter_cons, ih]
    unfold survives ServiceStatus_
    cases ha : alive s.Identifier.Pid <;> simp

theorem UpdateServiceStatusses_rest (alive : Int → Bool) (state : State) :
    (UpdateServiceStatusses alive state).TuningState = state.TuningState
      ∧ (UpdateServiceStatusses alive state).PublisherSocket = state.PublisherSocket :=
  ⟨rfl, rfl⟩

theorem alive_of_mem_swept {alive : Int → Bool} {state : State} {s : Service}
    (h : s ∈ (UpdateServiceStatusses alive state).Services) :
    alive s.Identifier.Pid = true := by
  rw [UpdateServiceStatusses_services, List.mem_filter] at h
  have := h.2
  unfold survives at this
  rw [Bool.and_eq_true] at this
  exact this.1

theorem GetServiceOption_eq_none_iff (alive : Int → Bool) (state : State) (key : String) :
    GetServiceOption alive state key = none
      ↔ ∀ s ∈ state.Services, alive s.Identifier.Pid = true →
          ∀ o' ∈ s.Options, o'.Name ≠ key := by
  unfold GetServiceOption
  rw [List.findSome?_eq_none_iff]
  constructor
  · intro h s hs ha o' ho' hk
    have := h s hs
    rw [if_pos ha, Option.map_eq_none', List.find?_eq_none] at this
    exact this o' ho' (by simpa using hk)
  · intro h s hs
    by_cases ha : alive s.Identifier.Pid = true
    · rw [if_pos ha, Option.map_eq_none', List.find?_eq_none]
      intro o' ho'
      simpa using h s hs ha o' ho'
    · rw [if_neg ha]

/-- The three outcomes of `handleServiceRegistration`, in terms of the reconciled registry. -/
theorem handleServiceRegistration_cases (fold : Char → Char) (alive : Int → Bool) (now : Int)
    (sendErr : Option String) (msg : Service) (state : State) :
    (nameTaken fold alive (UpdateServiceStatusses alive state).Services msg.Identifier.Name
        ∧ (∃ pid, alive pid = true ∧
            (handleServiceRegistration fold alive now sendErr msg state).1
              = .error (.alreadyRegistered msg.Identifier.Name pid))
        ∧ (handleServiceRegistration fold alive now sendErr msg state).2
            = UpdateServiceStatusses alive state)
      ∨ (¬ nameTaken fold alive (UpdateServiceStatusses alive state).Services
            msg.Identifier.Name
        ∧ optionTaken alive (UpdateServiceStatusses alive state).Services msg.Options
        ∧ (∃ option owner pid,
            (handleServiceRegistration fold alive now sendErr msg state).1
              = .error (.optionInUse msg.Identifier.Name option owner pid))
        ∧ (handleServiceRegistration fold alive now sendErr msg state).2
            = UpdateServiceStatusses alive state)
      ∨ (¬ nameTaken fold alive (UpdateServiceStatusses alive state).Services
            msg.Identifier.Name
        ∧ ¬ optionTaken alive (UpdateServiceStatusses alive state).Services msg.Options
        ∧ (handleServiceRegistration fold alive now sendErr msg state).1
            = .ok (stamped now msg)
        ∧ (handleServiceRegistration fold alive now sendErr msg state).2
            = AddService (UpdateServiceStatusses alive state) (stamped now msg)) := by
  unfold handleServiceRegistration
  simp only
  rcases Option.eq_none_or_eq_some
    (GetService fold (UpdateServiceStatusses alive state) msg.Identifier.Name) with hg | ⟨s, hg⟩
  · -- no service has the name
    have hname : ¬ nameTaken fold alive (UpdateServiceStatusses alive state).Services
        msg.Identifier.Name := by
      rintro ⟨s, hs, he, _⟩
      unfold GetService at hg
      rw [List.find?_eq_none] at hg
      exact hg s hs he
    rw [hg]
    simp only
    rcases Option.eq_none_or_eq_some (msg.Options.findSome?
      (fun o => GetServiceOption alive (UpdateServiceStatusses alive state) o.Name))
      with ho | ⟨⟨eo, es⟩, ho⟩
    · right; right
      refine ⟨hname, ?_, ?_⟩
      · rintro ⟨o, hom, s, hs, ha, o', ho', hk⟩
        rw [List.findSome?_eq_none_iff] at ho
        exact (GetServiceOption_eq_none_iff alive _ o.Name).mp (ho o hom) s hs ha o' ho' hk
      · rw [ho]
        exact ⟨rfl, rfl⟩
    · right; left
      refine ⟨hname, ?_, ?_⟩
      · by_contra hnot
        have hnone : msg.Options.findSome?
            (fun o => GetServiceOption alive (UpdateServiceStatusses alive state) o.Name)
            = none := by
          rw [List.findSome?_eq_none_iff]
          intro o hom
          rw [GetServiceOption_eq_none_iff]
          intro s hs ha o' ho' hk
          exact hnot ⟨o, hom, s, hs, ha, o', ho', hk⟩
        rw [hnone] at ho
        cases ho
      · rw [ho]
        exact ⟨⟨_, _, _, rfl⟩, rfl⟩
  · -- a service has the name; it survived the sweep, so its process exists
    have hs : s ∈ (UpdateServiceStatusses alive state).Services :=
      List.mem_of_find?_eq_some hg
    have ha : alive s.Identifier.Pid = true := alive_of_mem_swept hs
    have he : EqualFold fold s.Identifier.Name msg.Identifier.Name = true := by
      unfold GetService at hg
      have := List.find?_some hg
      simpa using this
    left
    refine ⟨⟨s, hs, he, ha⟩, ⟨s.Identifier.Pid, ha, ?_⟩, ?_⟩
    · rw [hg]
      simp only [ha, if_true]
    · rw [hg]
      simp only [ha, if_true]

theorem UpdateServiceStatusses_idem_services (alive : Int → Bool) (state : State) :
    (UpdateServiceStatusses alive (UpdateServiceStatusses alive state)).Services
      = (UpdateServiceStatusses alive state).Services := by
  rw [UpdateServiceStatusses_services alive (UpdateServiceStatusses alive state),
    UpdateServiceStatusses_services alive state, List.filter_filter]
  simp

/-- The handler `handleServiceRegistration` keeps the registry pairwise distinct. -/
theorem handleServiceRegistration_distinct (fold : Char → Char) (alive : Int → Bool)
    (now : Int) (sendErr : Option String) (msg : Service) (state : State)
    (h : state.Services.Pairwise (distinct fold)) :
    (handleServiceRegistration fold alive now sendErr msg state).2.Services.Pairwise
      (distinct fold) := by
  have hswept : (UpdateServiceStatusses alive state).Services.Pairwise (distinct fold) := by
    rw [UpdateServiceStatusses_services]
    exact h.filter _
  rcases handleServiceRegistration_cases fold alive now sendErr msg state with
    ⟨_, _, hst⟩ | ⟨_, _, _, hst⟩ | ⟨hname, hopt, _, hst⟩
  · rw [hst]; exact hswept
  · rw [hst]; exact hswept
  · rw [hst]
    unfold AddService
    simp only
    rw [List.pairwise_append]
    refine ⟨hswept, List.pairwise_singleton _ _, ?_⟩
    intro a ha b hb
    rw [List.mem_singleton] at hb
    subst hb
    have haa := alive_of_mem_swept ha
    constructor
    · by_contra hne
      rw [Bool.not_eq_false] at hne
      exact hname ⟨a, ha, hne, haa⟩
    · intro o ho o' ho' hk
      exact hopt ⟨o', ho', a, ha, haa, o, ho, hk⟩

theorem registerAll_distinct (fold : Char → Char) (reqs : List Registration) (state : State)
    (h : state.Services.Pairwise (distinct fold)) :
    (registerAll fold state reqs).Services.Pairwise (distinct fold) := by
  induction reqs generalizing state with
  | nil => exact h
  | cons r rs ih =>
    exact ih _ (handleServiceRegistration_distinct fold r.alive r.now r.sendErr r.msg state h)

/-! ## C7: re-registration of a name held by a live process -/

/-- C7 (as stated, refuted). `aliceStoppedState` is reached from the start state by the
registration of `alice` (pid 1) and a status update in which it reports `STOPPED`; it holds the
service `alice`, whose process is alive; yet the registration of `Alice` (pid 3) succeeds. -/
theorem registration_over_stopped_holder_succeeds :
    (∃ s ∈ aliceStoppedState.Services,
        s.Identifier.Name = "alice" ∧ allAlive s.Identifier.Pid = true)
      ∧ EqualFold Char.toLower "alice" "Alice" = true
      ∧ (handleServiceRegistration Char.toLower allAlive 30 none
          (mkService "Alice" 3 [gainOption] 0) aliceStoppedState).1
          = .ok (stamped 30 (mkService "Alice" 3 [gainOption] 0)) :=
  ⟨by decide, by decide, rfl⟩

/-- C7 (amended): in every state, if the registry holds a service whose process is alive and
whose stored status is `REGISTERED` or `RUNNING`, a registration request whose name equals
that service's name ignoring case fails with a Conflict error. -/
theorem registration_conflict_of_live_holder (fold : Char → Char) (alive : Int → Bool)
    (now : Int) (sendErr : Option String) (msg : Service) (state : State) (s : Service)
    (hs : s ∈ state.Services) (ha : alive s.Identifier.Pid = true)
    (hstatus : s.Status = .REGISTERED ∨ s.Status = .RUNNING)
    (hname : EqualFold fold s.Identifier.Name msg.Identifier.Name = true) :
    ∃ e, (handleServiceRegistration fold alive now sendErr msg state).1 = .error e
      ∧ e.isConflict = true := by
  have hsw : s ∈ (UpdateServiceStatusses alive state).Services := by
    rw [UpdateServiceStatusses_services, List.mem_filter]
    refine ⟨hs, ?_⟩
    unfold survives
    rcases hstatus with h | h <;> simp [ha, h]
  have htaken : nameTaken fold alive (UpdateServiceStatusses alive state).Services
      msg.Identifier.Name := ⟨s, hsw, hname, ha⟩
  rcases handleServiceRegistration_cases fold alive now sendErr msg state with
    ⟨_, ⟨pid, _, he⟩, _⟩ | ⟨hn, _⟩ | ⟨hn, _⟩
  · exact ⟨_, he, rfl⟩
  · exact absurd htaken hn
  · exact absurd htaken hn

/-- C7 (amended), at `aliceState`: the registration of `Alice` is refused. -/
theorem registration_conflict_of_live_holder_witness :
    ∃ e, (handleServiceRegistration Char.toLower allAlive 30 none
        (mkService "Alice" 3 [] 0) aliceState).1 = .error e ∧ e.isConflict = true :=
  registration_conflict_of_live_holder Char.toLower allAlive 30 none
    (mkService "Alice" 3 [] 0) aliceState (stamped 10 (mkService "alice" 1 [gainOption] 0))
    (by decide) (by decide) (by decide) (by decide)

/-! ## C8: uniqueness of names and option names -/

theorem distinct_symm (fold : Char → Char) {a b : Service} (h : distinct fold a b) :
    distinct fold b a :=
  ⟨by rw [EqualFold_comm]; exact h.1, fun o ho o' ho' hk => h.2 o' ho' o ho hk.symm⟩

/-- C8: starting from the initial state, after every sequence of registration requests, each
handled under its own answers of the process table, any two services of the registry (whether
their processes are alive or not) have names that differ ignoring case and no option name in
common. -/
theorem registry_distinct (fold : Char → Char) (name : String) (pid : Int)
    (reqrepAddr broadcastAddr : String) (reqs : List Registration) :
    (registerAll fold (initialState name pid reqrepAddr broadcastAddr) reqs).Services.Pairwise
      (fun a b => distinct fold a b ∧ distinct fold b a) :=
  (registerAll_distinct fold reqs _ (List.pairwise_singleton _ _)).imp
    (fun h => ⟨h, distinct_symm fold h⟩)

/-! ## C9: when registration fails -/

/-- C9 (as stated, refuted). `alice` (pid 1, option `gain`) registered; pid 1 died; `bob` (pid
2, option `gain`) registered and a sweep ran, giving `bobState`, in which no service has the
name `alice`. The re-registration of `alice` (pid 3, option `gain`) fails: `gain` is in use
by `bob`. -/
theorem reregistration_fails_on_option :
    (handleServiceRegistration Char.toLower allAlive 10 none
        (mkService "alice" 1 [gainOption] 0) startState).1
        = .ok (stamped 10 (mkService "alice" 1 [gainOption] 0))
      ∧ firstDead 1 = false
      ∧ UpdateServiceStatusses firstDead bobState = bobState
      ∧ (∀ s ∈ bobState.Services, EqualFold Char.toLower s.Identifier.Name "alice" = false)
      ∧ (handleServiceRegistration Char.toLower firstDead 30 none
          (mkService "alice" 3 [gainOption] 0) bobState).1
          = .error (.optionInUse "alice" "gain" "bob" 2) :=
  ⟨rfl, by decide, by decide, by decide, rfl⟩

/-- C9 (amended): `handleServiceRegistration` fails exactly when, after reconciling statuses,
the registry holds a service with the same name ignoring case whose process is alive, or
some declared option name is the name of an option of a present service whose process is
alive; in particular, once the process table reports every holder of the name dead and a
sweep has run, the re-registration of that name succeeds exactly when none of its option
names is the name of an option of a present service whose process is alive. -/
theorem handleServiceRegistration_fails_iff (fold : Char → Char) (alive : Int → Bool)
    (now : Int) (sendErr : Option String) (msg : Service) (state : State) :
    ((∃ e, (handleServiceRegistration fold alive now sendErr msg state).1 = .error e)
        ↔ nameTaken fold alive (UpdateServiceStatusses alive state).Services
            msg.Identifier.Name
          ∨ optionTaken alive (UpdateServiceStatusses alive state).Services msg.Options)
      ∧ ((∀ s ∈ state.Services,
            EqualFold fold s.Identifier.Name msg.Identifier.Name = true →
              alive s.Identifier.Pid = false) →
          ((handleServiceRegistration fold alive now sendErr msg
              (UpdateServiceStatusses alive state)).1
              = .ok { msg with Status := .REGISTERED, RegisteredAt := now }
            ↔ ¬ optionTaken alive (UpdateServiceStatusses alive state).Services
                msg.Options)) := by
  constructor
  · rcases handleServiceRegistration_cases fold alive now sendErr msg state with
      ⟨hn, ⟨pid, _, he⟩, _⟩ | ⟨_, ho, ⟨a, b, c, he⟩, _⟩ | ⟨hn, ho, he, _⟩
    · exact ⟨fun _ => Or.inl hn, fun _ => ⟨_, he⟩⟩
    · exact ⟨fun _ => Or.inr ho, fun _ => ⟨_, he⟩⟩
    · constructor
      · rintro ⟨e, hee⟩
        rw [he] at hee
        cases hee
      · rintro (h | h)
        · exact absurd h hn
        · exact absurd h ho
  · intro hdead
    have hidem := UpdateServiceStatusses_idem_services alive state
    have hfree : ¬ nameTaken fold alive (UpdateServiceStatusses alive state).Services
        msg.Identifier.Name := by
      rintro ⟨s, hs, he, ha⟩
      rw [UpdateServiceStatusses_services, List.mem_filter] at hs
      have := hdead s hs.1 he
      rw [ha] at this
      cases this
    rcases handleServiceRegistration_cases fold alive now sendErr msg
        (UpdateServiceStatusses alive state) with
      ⟨hn, _⟩ | ⟨_, ho, ⟨a, b, c, he⟩, _⟩ | ⟨_, ho, he, _⟩
    · rw [hidem] at hn
      exact absurd hn hfree
    · rw [hidem] at ho
      constructor
      · intro hok
        rw [he] at hok
        cases hok
      · intro hno
        exact absurd ho hno
    · rw [hidem] at ho
      exact ⟨fun _ => ho, fun _ => he⟩

/-- C9 (amended), at `aliceState` once pid 1 is dead: the re-registration of `alice` with
pid 3 succeeds. -/
theorem handleServiceRegistration_fails_iff_witness :
    (handleServiceRegistration Char.toLower firstDead 30 none
        (mkService "alice" 3 [gainOption] 0) (UpdateServiceStatusses firstDead aliceState)).1
      = .ok (stamped 30 (mkService "alice" 3 [gainOption] 0)) :=
  ((handleServiceRegistration_fails_iff Char.toLower firstDead 30 none
      (mkService "alice" 3 [gainOption] 0) aliceState).2 (by decide)).mpr
    (by unfold optionTaken; decide)

/-! ## C10: what registration leaves behind -/

/-- C10: on success the registry is the reconciled registry with the request's service
appended last, carrying status `REGISTERED` and `RegisteredAt` equal to the current time, and
that stored service is the response; on failure the registry is the reconciled registry; the
stored tuning state is unchanged in both cases. -/
theorem handleServiceRegistration_postcondition (fold : Char → Char) (alive : Int → Bool)
    (now : Int) (sendErr : Option String) (msg : Service) (state : State) :
    (∀ v, (handleServiceRegistration fold alive now sendErr msg state).1 = .ok v →
        v = { msg with Status := .REGISTERED, RegisteredAt := now }
          ∧ (handleServiceRegistration fold alive now sendErr msg state).2.Services
              = (UpdateServiceStatusses alive state).Services ++ [v])
      ∧ (∀ e, (handleServiceRegistration fold alive now sendErr msg state).1 = .error e →
          (handleServiceRegistration fold alive now sendErr msg state).2.Services
            = (UpdateServiceStatusses alive state).Services)
      ∧ (handleServiceRegistration fold alive now sendErr msg state).2.TuningState
          = state.TuningState := by
  rcases handleServiceRegistration_cases fold alive now sendErr msg state with
    ⟨_, ⟨pid, _, he⟩, hst⟩ | ⟨_, _, ⟨a, b, c, he⟩, hst⟩ | ⟨_, _, he, hst⟩
  · refine ⟨fun v hv => ?_, fun e _ => by rw [hst], by rw [hst]; rfl⟩
    rw [he] at hv
    cases hv
  · refine ⟨fun v hv => ?_, fun e _ => by rw [hst], by rw [hst]; rfl⟩
    rw [he] at hv
    cases hv
  · refine ⟨fun v hv => ?_, fun e hv => ?_, by rw [hst]; rfl⟩
    · rw [he] at hv
      cases hv
      exact ⟨rfl, by rw [hst]; rfl⟩
    · rw [he] at hv
      cases hv

/-- C10, at the registration of `alice` in the start state. -/
theorem handleServiceRegistration_postcondition_witness :
    aliceState.Services
      = (UpdateServiceStatusses allAlive startState).Services
          ++ [stamped 10 (mkService "alice" 1 [gainOption] 0)] :=
  ((handleServiceRegistration_postcondition Char.toLower allAlive 10 none
      (mkService "alice" 1 [gainOption] 0) startState).1 _ rfl).2

/-! ## C11, C12: the sweep -/

/-- The state `UpdateServiceStatusses` leaves: the surviving services, nothing else changed. -/
theorem UpdateServiceStatusses_eq (alive : Int → Bool) (state : State) :
    UpdateServiceStatusses alive state
      = { state with Services := state.Services.filter (survives alive) } := by
  have h : UpdateServiceStatusses alive state
      = { state with Services := (UpdateServiceStatusses alive state).Services } := rfl
  rw [h, UpdateServiceStatusses_services]

/-- C11 (as stated, refuted): `aliceStoppedState` holds the service `alice`, whose process is
alive and whose stored status is `STOPPED`; the sweep removes it. -/
theorem sweep_removes_live_stopped_service :
    stamped 10 (mkService "alice" 1 [gainOption] 0) ∈ aliceState.Services
      ∧ { stamped 10 (mkService "alice" 1 [gainOption] 0) with Status := ServiceStatus.STOPPED }
          ∈ aliceStoppedState.Services
      ∧ allAlive 1 = true
      ∧ (UpdateServiceStatusses allAlive aliceStoppedState).Services.map
          (fun s => s.Identifier.Name) = ["core"] := by
  decide

/-- C11 (amended): for every registry and every liveness oracle, `UpdateServiceStatusses`
removes each service whose process the oracle reports as not existing, and each service whose
stored status is `STOPPED`, `NOT_REGISTERED` or `UNKNOWN`, and leaves all other services
untouched: every service whose process is alive and whose stored status is none of these
three remains in the registry, in the same relative order, with the same identifier,
options, endpoints and status; the rest of the state is unchanged. -/
theorem UpdateServiceStatusses_frame (alive : Int → Bool) (state : State) :
    (UpdateServiceStatusses alive state).Services
        = state.Services.filter (fun s => alive s.Identifier.Pid &&
            !(s.Status == .STOPPED || s.Status == .NOT_REGISTERED || s.Status == .UNKNOWN))
      ∧ (∀ s ∈ state.Services, alive s.Identifier.Pid = false →
          s ∉ (UpdateServiceStatusses alive state).Services)
      ∧ (UpdateServiceStatusses alive state).TuningState = state.TuningState
      ∧ (UpdateServiceStatusses alive state).PublisherSocket = state.PublisherSocket := by
  refine ⟨UpdateServiceStatusses_services alive state, ?_, rfl, rfl⟩
  intro s _ hdead hin
  have := alive_of_mem_swept hin
  rw [hdead] at this
  cases this

/-- C11 (amended), at `aliceState` once pid 1 is dead: the core stays, `alice` goes. -/
theorem UpdateServiceStatusses_frame_witness :
    stamped 10 (mkService "alice" 1 [gainOption] 0)
      ∉ (UpdateServiceStatusses firstDead aliceState).Services :=
  (UpdateServiceStatusses_frame firstDead aliceState).2.1 _ (by decide) (by decide)

/-- C12: `UpdateServiceStatusses` is idempotent under a fixed liveness oracle: applied twice it
leaves the state it leaves applied once; and after one application every remaining service
has a live process and a stored status that is none of `STOPPED`, `NOT_REGISTERED`,
`UNKNOWN`. -/
theorem UpdateServiceStatusses_idempotent (alive : Int → Bool) (state : State) :
    UpdateServiceStatusses alive (UpdateServiceStatusses alive state)
        = UpdateServiceStatusses alive state
      ∧ ∀ s ∈ (UpdateServiceStatusses alive state).Services,
          alive s.Identifier.Pid = true ∧ s.Status ≠ .STOPPED ∧ s.Status ≠ .NOT_REGISTERED
            ∧ s.Status ≠ .UNKNOWN := by
  constructor
  · rw [UpdateServiceStatusses_eq alive (UpdateServiceStatusses alive state),
      UpdateServiceStatusses_eq alive state]
    simp only [List.filter_filter, Bool.and_self]
  · intro s hs
    rw [UpdateServiceStatusses_services, List.mem_filter] at hs
    have h := hs.2
    unfold survives at h
    simp only [Bool.and_eq_true, Bool.not_eq_true', Bool.or_eq_false_iff, beq_eq_false_iff_ne,
      ne_eq] at h
    exact ⟨h.1, h.2.1.1, h.2.1.2, h.2.2⟩

/-! ## C13: status updates -/

theorem updateFirst_eq_none_iff (fold : Char → Char) (name : String) (pid : Int)
    (status : ServiceStatus) (l : List Service) :
    updateFirst fold name pid status l = none
      ↔ ∀ s ∈ l, ¬ (EqualFold fold s.Identifier.Name name = true ∧ s.Identifier.Pid = pid) := by
  induction l with
  | nil => simp [updateFirst]
  | cons s rest ih =>
    unfold updateFirst
    by_cases hm : (EqualFold fold s.Identifier.Name name && s.Identifier.Pid == pid) = true
    · rw [if_pos hm]
      simp only [Bool.and_eq_true, beq_iff_eq] at hm
      simp [hm]
    · rw [if_neg hm]
      simp only [Bool.and_eq_true, beq_iff_eq] at hm
      cases hr : updateFirst fold name pid status rest with
      | none =>
        rw [hr] at ih
        have ih' := ih.mp rfl
        constructor
        · intro _ x hx
          rcases List.mem_cons.mp hx with rfl | hx
          · exact hm
          · exact ih' x hx
        · intro _; rfl
      | some r =>
        rw [hr] at ih
        constructor
        · intro h; cases h
        · intro h
          have := ih.mpr (fun x hx => h x (List.mem_cons_of_mem _ hx))
          cases this

theorem updateFirst_eq_some (fold : Char → Char) (name : String) (pid : Int)
    (status : ServiceStatus) (l : List Service) (r : Service) (l' : List Service)
    (h : updateFirst fold name pid status l = some (r, l')) :
    ∃ pre s post, l = pre ++ s :: post
      ∧ (∀ x ∈ pre, ¬ (EqualFold fold x.Identifier.Name name = true ∧ x.Identifier.Pid = pid))
      ∧ EqualFold fold s.Identifier.Name name = true ∧ s.Identifier.Pid = pid
      ∧ r = { s with Status := status }
      ∧ l' = pre ++ r :: post := by
  induction l generalizing r l' with
  | nil => simp [updateFirst] at h
  | cons s rest ih =>
    unfold updateFirst at h
    by_cases hm : (EqualFold fold s.Identifier.Name name && s.Identifier.Pid == pid) = true
    · rw [if_pos hm] at h
      simp only [Option.some.injEq, Prod.mk.injEq] at h
      simp only [Bool.and_eq_true, beq_iff_eq] at hm
      exact ⟨[], s, rest, rfl, by simp, hm.1, hm.2, h.1.symm, by rw [← h.2, ← h.1]; rfl⟩
    · rw [if_neg hm] at h
      simp only [Bool.and_eq_true, beq_iff_eq] at hm
      cases hr : updateFirst fold name pid status rest with
      | none => rw [hr] at h; cases h
      | some q =>
        obtain ⟨r0, rest0⟩ := q
        rw [hr] at h
        simp only [Option.some.injEq, Prod.mk.injEq] at h
        obtain ⟨pre, t, post, hl, hpre, hn, hp, hr0, hrest⟩ := ih r0 rest0 hr
        refine ⟨s :: pre, t, post, by rw [hl]; rfl, ?_, hn, hp, ?_, ?_⟩
        · intro x hx
          rcases List.mem_cons.mp hx with rfl | hx
          · exact hm
          · exact hpre x hx
        · rw [← h.1]; exact hr0
        · rw [← h.2, hrest, ← h.1]; rfl

/-- C13 (as stated, refuted): no service of `aliceState` has the name `ALICE`, yet the status
update for `ALICE` with pid 1 succeeds and sets the status of `alice`. -/
theorem UpdateServiceStatus_matches_folded_name :
    (∀ s ∈ aliceState.Services, s.Identifier.Name ≠ "ALICE")
      ∧ (UpdateServiceStatus Char.toLower aliceState "ALICE" 1 .RUNNING).1
          = .ok { stamped 10 (mkService "alice" 1 [gainOption] 0) with
                  Status := ServiceStatus.RUNNING } :=
  ⟨by decide, rfl⟩

/-- C13 (amended): `UpdateServiceStatus(name, pid, status)` finds its target by a name equal
ignoring case and an equal process id: it returns the NotFound error exactly when no service
of the registry has a name equal to `name` ignoring case and a pid equal to `pid`; on success
it sets the status of the first such service to `status`, returns it, and changes no other
service; on error the state is unchanged. -/
theorem UpdateServiceStatus_spec (fold : Char → Char) (state : State) (name : String)
    (pid : Int) (status : ServiceStatus) :
    ((UpdateServiceStatus fold state name pid status).1
          = .error (.statusTargetNotFound name pid)
        ↔ ∀ s ∈ state.Services,
            ¬ (EqualFold fold s.Identifier.Name name = true ∧ s.Identifier.Pid = pid))
      ∧ (∀ r, (UpdateServiceStatus fold state name pid status).1 = .ok r →
          ∃ pre s post, state.Services = pre ++ s :: post
            ∧ (∀ x ∈ pre,
                ¬ (EqualFold fold x.Identifier.Name name = true ∧ x.Identifier.Pid = pid))
            ∧ EqualFold fold s.Identifier.Name name = true ∧ s.Identifier.Pid = pid
            ∧ r = { s with Status := status }
            ∧ (UpdateServiceStatus fold state name pid status).2.Services = pre ++ r :: post)
      ∧ (∀ e, (UpdateServiceStatus fold state name pid status).1 = .error e →
          e = .statusTargetNotFound name pid
            ∧ (UpdateServiceStatus fold state name pid status).2 = state) := by
  unfold UpdateServiceStatus
  cases hu : updateFirst fold name pid status state.Services with
  | none =>
    dsimp only
    refine ⟨⟨fun _ => (updateFirst_eq_none_iff fold name pid status _).mp hu, fun _ => rfl⟩,
      fun r hr => (by cases hr), fun e he => ?_⟩
    simp only [Except.error.injEq] at he
    exact ⟨he.symm, rfl⟩
  | some q =>
    obtain ⟨r0, l'⟩ := q
    dsimp only
    refine ⟨⟨fun h => (by cases h), fun h => ?_⟩, fun r hr => ?_, fun e he => (by cases he)⟩
    · have := (updateFirst_eq_none_iff fold name pid status _).mpr h
      rw [hu] at this
      cases this
    · simp only [Except.ok.injEq] at hr
      subst hr
      exact updateFirst_eq_some fold name pid status _ _ _ hu

/-- C13 (amended), at `aliceState`: the update for `alice` with the stale pid 9 is refused and
changes nothing. -/
theorem UpdateServiceStatus_spec_witness :
    (UpdateServiceStatus Char.toLower aliceState "alice" 9 .RUNNING).2 = aliceState :=
  ((UpdateServiceStatus_spec Char.toLower aliceState "alice" 9 .RUNNING).2.2 _ rfl).2

/-! ## Lemmas on information requests -/

theorem EqualFold_refl (fold : Char → Char) (a : String) : EqualFold fold a a = true := by
  simp [EqualFold]

theorem find?_refreshFirst_split (fold : Char → Char) (alive : Int → Bool) (name : String)
    (pre post : List Service) (s : Service)
    (hpre : ∀ x ∈ pre, EqualFold fold x.Identifier.Name name = false)
    (hs : EqualFold fold s.Identifier.Name name = true) :
    (pre ++ s :: post).find? (fun x => EqualFold fold x.Identifier.Name name) = some s
      ∧ refreshFirst fold alive name (pre ++ s :: post)
          = pre ++ { s with Status := ServiceStatus_ alive s } :: post := by
  induction pre with
  | nil => simp [List.find?_cons, refreshFirst, hs]
  | cons x pre ih =>
    have hx := hpre x (List.mem_cons_self _ _)
    have := ih (fun y hy => hpre y (List.mem_cons_of_mem _ hy))
    simp [List.find?_cons, refreshFirst, hx, this.1, this.2]

theorem refreshFirst_identifiers (fold : Char → Char) (alive : Int → Bool) (name : String)
    (l : List Service) :
    (refreshFirst fold alive name l).map (fun s => s.Identifier)
      = l.map (fun s => s.Identifier) := by
  induction l with
  | nil => rfl
  | cons s rest ih =>
    unfold refreshFirst
    split
    · rfl
    · rw [List.map_cons, List.map_cons, ih]

theorem mem_refreshFirst (fold : Char → Char) (alive : Int → Bool) (name : String)
    (l : List Service) (x : Service) (hx : x ∈ refreshFirst fold alive name l) :
    x ∈ l ∨ ∃ s ∈ l, x = { s with Status := ServiceStatus_ alive s } := by
  induction l with
  | nil => cases hx
  | cons s rest ih =>
    unfold refreshFirst at hx
    split at hx
    · rcases List.mem_cons.mp hx with rfl | h
      · exact Or.inr ⟨s, List.mem_cons_self _ _, rfl⟩
      · exact Or.inl (List.mem_cons_of_mem _ h)
    · rcases List.mem_cons.mp hx with rfl | h
      · exact Or.inl (List.mem_cons_self _ _)
      · rcases ih h with h' | ⟨t, ht, hxt⟩
        · exact Or.inl (List.mem_cons_of_mem _ h')
        · exact Or.inr ⟨t, List.mem_cons_of_mem _ ht, hxt⟩

/-! ## The state after a request -/

/-- The state `handleMessage` leaves, for each kind of request. -/
theorem handleMessage_state (fold : Char → Char) (alive : Int → Bool) (now : Int)
    (sendErr : Option String) (m : CoreMessage) (state : State) :
    (handleMessage fold alive now sendErr m state).2
      = match m with
        | .Service msg => (handleServiceRegistration fold alive now sendErr msg state).2
        | .ServiceInformationRequest requested =>
          (handleServiceInformationRequest fold alive requested state).2
        | .ServiceStatusUpdate service status =>
          (handleServiceStatusUpdate fold service status state).2
        | .TuningState ts => (UpdateTuningState now state ts).2
        | .TuningStateRequest => state
        | .ServiceListRequest => UpdateServiceStatusses alive state
        | .ServiceOrder => state
        | .unsupported => state := by
  cases m with
  | Service msg =>
    unfold handleMessage
    simp only
    rcases h : handleServiceRegistration fold alive now sendErr msg state with ⟨r, st⟩
    cases r <;> rfl
  | ServiceInformationRequest requested => rfl
  | ServiceStatusUpdate service status =>
    unfold handleMessage
    simp only
    rcases h : handleServiceStatusUpdate fold service status state with ⟨r, st⟩
    cases r <;> rfl
  | TuningState ts => rfl
  | TuningStateRequest => rfl
  | ServiceListRequest => rfl
  | ServiceOrder => rfl
  | unsupported => rfl

theorem UpdateTuningState_services (now : Int) (state : State) (ts : TuningState) :
    (UpdateTuningState now state ts).2.Services = state.Services := rfl

/-! ## C20: only the reconciliation removes entries -/

theorem updateFirst_identifiers (fold : Char → Char) (name : String) (pid : Int)
    (status : ServiceStatus) (l : List Service) (r : Service) (l' : List Service)
    (h : updateFirst fold name pid status l = some (r, l')) :
    l'.map (fun s => s.Identifier) = l.map (fun s => s.Identifier) := by
  obtain ⟨pre, s, post, hl, _, _, _, hr, hl'⟩ := updateFirst_eq_some fold name pid status l r l' h
  rw [hl, hl', hr]
  simp

theorem UpdateServiceStatus_identifiers (fold : Char → Char) (state : State) (name : String)
    (pid : Int) (status : ServiceStatus) :
    (UpdateServiceStatus fold state name pid status).2.Services.map (fun s => s.Identifier)
      = state.Services.map (fun s => s.Identifier) := by
  unfold UpdateServiceStatus
  cases hu : updateFirst fold name pid status state.Services with
  | none => rfl
  | some q =>
    obtain ⟨r, l'⟩ := q
    exact updateFirst_identifiers fold name pid status _ r l' hu

theorem handleServiceInformationRequest_identifiers (fold : Char → Char) (alive : Int → Bool)
    (requested : Option ServiceIdentifier) (state : State) :
    (handleServiceInformationRequest fold alive requested state).2.Services.map
        (fun s => s.Identifier)
      = state.Services.map (fun s => s.Identifier) := by
  unfold handleServiceInformationRequest
  cases requested with
  | none => rfl
  | some r =>
    dsimp only
    cases GetService fold state r.Name with
    | none => rfl
    | some s => exact refreshFirst_identifiers fold alive r.Name state.Services

/-- C20: a status update, an information request, a tuning upsert and a tuning request each
leave the sequence of service identifiers of the registry exactly as it was, for every state
and every request; the two tuning requests leave the whole registry as it was. -/
theorem requests_keep_identifiers (fold : Char → Char) (alive : Int → Bool) (now : Int)
    (sendErr : Option String) (state : State) :
    (∀ (service : ServiceIdentifier) (status : ServiceStatus),
        (handleMessage fold alive now sendErr (.ServiceStatusUpdate service status)
            state).2.Services.map (fun s => s.Identifier)
          = state.Services.map (fun s => s.Identifier))
      ∧ (∀ requested : Option ServiceIdentifier,
        (handleMessage fold alive now sendErr (.ServiceInformationRequest requested)
            state).2.Services.map (fun s => s.Identifier)
          = state.Services.map (fun s => s.Identifier))
      ∧ (∀ ts : TuningState,
        (handleMessage fold alive now sendErr (.TuningState ts) state).2.Services
          = state.Services)
      ∧ (handleMessage fold alive now sendErr .TuningStateRequest state).2.Services
          = state.Services := by
  refine ⟨fun service status => ?_, fun requested => ?_, fun ts => ?_, ?_⟩
  · rw [handleMessage_state]
    exact UpdateServiceStatus_identifiers fold state service.Name service.Pid status
  · rw [handleMessage_state]
    exact handleServiceInformationRequest_identifiers fold alive requested state
  · rw [handleMessage_state]
    rfl
  · rw [handleMessage_state]

/-! ## C17, C18: the tuning requests -/

/-- C17: neither tuning handler can fail: for every state and every input tuning state,
`handleTuningStateUpsert` and `handleTuningStateRequest` return a tuning state and no error,
the one `GetTuningState` builds, which with no option declared and no parameter stored has an
empty parameter list. -/
theorem tuning_handlers_succeed (now : Int) (sendErr : Option String) (msg : TuningState)
    (state : State) :
    (handleTuningStateUpsert now sendErr msg state).1
        = .ok (GetTuningState now (UpdateTuningState now state msg).2)
      ∧ handleTuningStateRequest now state = .ok (GetTuningState now state)
      ∧ (∀ fold alive,
          (handleMessage fold alive now sendErr (.TuningState msg) state).1
              = .ok (.TuningState (GetTuningState now (UpdateTuningState now state msg).2))
            ∧ (handleMessage fold alive now sendErr .TuningStateRequest state).1
              = .ok (.TuningState (GetTuningState now state)))
      ∧ (∀ publisher, (GetTuningState now
          { Services := [], PublisherSocket := publisher, TuningState := none }).DynamicParameters
            = []) :=
  ⟨rfl, rfl, fun _ _ => ⟨rfl, rfl⟩, fun _ => rfl⟩

/-- C18: `GetTuningState` applied to an empty registry and an empty stored tuning state returns
an empty parameter list; for every registry and stored state the parameter list is the same
at any two clock values (and whatever the rest of the state is); and the state, with its
stored tuning state, is the same after a tuning request as before. -/
theorem GetTuningState_pure (fold : Char → Char) (alive : Int → Bool) (sendErr : Option String)
    (now now' : Int) (services : List Service) (stored : Option TuningState)
    (publisher publisher' : Option Socket) (timestamp : Nat) :
    (GetTuningState now
        { Services := [], PublisherSocket := publisher,
          TuningState := some { Timestamp := timestamp, DynamicParameters := [] }
        }).DynamicParameters = []
      ∧ (GetTuningState now
          { Services := services, PublisherSocket := publisher,
            TuningState := stored }).DynamicParameters
        = (GetTuningState now'
          { Services := services, PublisherSocket := publisher',
            TuningState := stored }).DynamicParameters
      ∧ (handleMessage fold alive now sendErr .TuningStateRequest
          { Services := services, PublisherSocket := publisher, TuningState := stored }).2
        = { Services := services, PublisherSocket := publisher, TuningState := stored } :=
  ⟨rfl, rfl, rfl⟩

/-! ## C15: the statuses that are stored -/

/-- C15 (as stated, refuted): after the registration of `alice` and a status update in which
pid 1 reports `UNKNOWN` for `alice`, both handled from the start state, the registry holds a
service with the stored status `UNKNOWN`. -/
theorem status_update_stores_unknown :
    startState = initialState "core" 100 "tcp://*:5000" "tcp://*:5001"
      ∧ ∃ s ∈ (run Char.toLower startState
          [.request { alive := allAlive, now := 10, sendErr := none }
              (.Service (mkService "alice" 1 [gainOption] 0)),
           .request { alive := allAlive, now := 20, sendErr := none }
              (.ServiceStatusUpdate { Name := "alice", Pid := 1 } .UNKNOWN)]).Services,
          s.Identifier.Name = "alice" ∧ s.Status = .UNKNOWN := by
  decide

/-- One event that is not a status update carrying `UNKNOWN` or `NOT_REGISTERED` stores
neither of the two statuses. -/
theorem step_keeps_stored_statuses (fold : Char → Char) (state : State) (e : Event)
    (he : e.reportsStoredStatus = true)
    (h : ∀ s ∈ state.Services, s.Status ≠ .UNKNOWN ∧ s.Status ≠ .NOT_REGISTERED) :
    ∀ s ∈ (step fold state e).Services, s.Status ≠ .UNKNOWN ∧ s.Status ≠ .NOT_REGISTERED := by
  have hsweep : ∀ alive, ∀ s ∈ (UpdateServiceStatusses alive state).Services,
      s.Status ≠ .UNKNOWN ∧ s.Status ≠ .NOT_REGISTERED := by
    intro alive s hs
    rw [UpdateServiceStatusses_services] at hs
    exact h s (List.mem_of_mem_filter hs)
  cases e with
  | sweep alive => exact hsweep alive
  | request env m =>
    unfold step
    simp only
    rw [handleMessage_state]
    cases m with
    | Service msg =>
      simp only
      rcases handleServiceRegistration_cases fold env.alive env.now env.sendErr msg state with
        ⟨_, _, hst⟩ | ⟨_, _, _, hst⟩ | ⟨_, _, _, hst⟩
      · rw [hst]; exact hsweep env.alive
      · rw [hst]; exact hsweep env.alive
      · rw [hst]
        intro s hs
        unfold AddService at hs
        rcases List.mem_append.mp hs with hs | hs
        · exact hsweep env.alive s hs
        · rw [List.mem_singleton] at hs
          subst hs
          exact ⟨by simp [stamped], by simp [stamped]⟩
    | ServiceInformationRequest requested =>
      simp only
      unfold handleServiceInformationRequest
      cases requested with
      | none => exact h
      | some r =>
        dsimp only
        cases GetService fold state r.Name with
        | none => exact h
        | some found =>
          intro s hs
          rcases mem_refreshFirst fold env.alive r.Name state.Services s hs with hs | ⟨t, ht, rfl⟩
          · exact h s hs
          · have := h t ht
            unfold ServiceStatus_
            cases env.alive t.Identifier.Pid <;> simp [this.1, this.2]
    | ServiceStatusUpdate service status =>
      simp only
      unfold handleServiceStatusUpdate UpdateServiceStatus
      cases hu : updateFirst fold service.Name service.Pid status state.Services with
      | none => exact h
      | some q =>
        obtain ⟨r, l'⟩ := q
        obtain ⟨pre, t, post, hl, _, _, _, hr, hl'⟩ :=
          updateFirst_eq_some fold service.Name service.Pid status _ r l' hu
        intro s hs
        have hs' : s ∈ pre ++ r :: post := by rw [← hl']; exact hs
        have hmem : s ∈ state.Services ∨ s = r := by
          rw [hl]
          rcases List.mem_append.mp hs' with hp | hp
          · exact Or.inl (List.mem_append_left _ hp)
          · rcases List.mem_cons.mp hp with hp | hp
            · exact Or.inr hp
            · exact Or.inl (List.mem_append_right _ (List.mem_cons_of_mem _ hp))
        rcases hmem with hm | hm
        · exact h s hm
        · subst hm
          rw [hr]
          simp only [Event.reportsStoredStatus, Bool.not_eq_true', Bool.or_eq_false_iff,
            beq_eq_false_iff_ne, ne_eq] at he
          exact he
    | TuningState ts => exact h
    | TuningStateRequest => exact h
    | ServiceListRequest => exact hsweep env.alive
    | ServiceOrder => exact h
    | unsupported => exact h

/-- C15 (amended): in every state reachable from the initial state through any sequence of
dispatcher requests (registration, information request, status update, tuning upsert, tuning
request, list request, any other) and sweeps in which no status update carries `UNKNOWN` or
`NOT_REGISTERED`, no service in the registry has the stored status `UNKNOWN` or
`NOT_REGISTERED`. -/
theorem stored_statuses (fold : Char → Char) (name : String) (pid : Int)
    (reqrepAddr broadcastAddr : String) (events : List Event)
    (hevents : ∀ e ∈ events, e.reportsStoredStatus = true) :
    ∀ s ∈ (run fold (initialState name pid reqrepAddr broadcastAddr) events).Services,
      s.Status ≠ .UNKNOWN ∧ s.Status ≠ .NOT_REGISTERED := by
  have hgen : ∀ (events : List Event) (state : State),
      (∀ e ∈ events, e.reportsStoredStatus = true) →
      (∀ s ∈ state.Services, s.Status ≠ .UNKNOWN ∧ s.Status ≠ .NOT_REGISTERED) →
      ∀ s ∈ (run fold state events).Services,
        s.Status ≠ .UNKNOWN ∧ s.Status ≠ .NOT_REGISTERED := by
    intro events
    induction events with
    | nil => intro state _ h; exact h
    | cons e es ih =>
      intro state he h
      have := ih (step fold state e) (fun x hx => he x (List.mem_cons_of_mem _ hx))
        (step_keeps_stored_statuses fold state e (he e (List.mem_cons_self _ _)) h)
      exact this
  apply hgen events _ hevents
  intro s hs
  have : s.Status = .RUNNING := by
    simp only [initialState, AddService, List.nil_append, List.mem_singleton] at hs
    rw [hs]
  rw [this]
  exact ⟨by simp, by simp⟩

/-- C15 (amended), at `aliceRunning` from the initial state: the service `alice`, stored with
the status `RUNNING` it reported, has neither of the two statuses. -/
theorem stored_statuses_witness :
    ({ stamped 10 (mkService "alice" 1 [gainOption] 0) with
        Status := ServiceStatus.RUNNING } : Service).Status ≠ .UNKNOWN
      ∧ ({ stamped 10 (mkService "alice" 1 [gainOption] 0) with
        Status := ServiceStatus.RUNNING } : Service).Status ≠ .NOT_REGISTERED :=
  stored_statuses Char.toLower "core" 100 "tcp://*:5000" "tcp://*:5001" aliceRunning
    (by decide)
    { stamped 10 (mkService "alice" 1 [gainOption] 0) with Status := ServiceStatus.RUNNING }
    (by decide)

/-! ## C16: keys of the effective tuning state -/

theorem keys_contributions_nodup (latest : Option TuningState)
    (L : List (Service × ServiceOption)) (h : (L.map (fun d => d.2.Name)).Nodup) :
    ((L.filterMap (contribution latest)).map paramKey).Nodup
      ∧ ∀ k ∈ (L.filterMap (contribution latest)).map paramKey,
          k ∈ L.map (fun d => d.2.Name) := by
  induction L with
  | nil => simp
  | cons d L ih =>
    rw [List.map_cons, List.nodup_cons] at h
    obtain ⟨hnd, hsub⟩ := ih h.2
    cases hc : contribution latest d with
    | none =>
      rw [List.filterMap_cons, hc]
      exact ⟨hnd, fun k hk => List.mem_cons_of_mem _ (hsub k hk)⟩
    | some p =>
      have hp := paramKey_contribution hc
      rw [List.filterMap_cons, hc, List.map_cons, List.nodup_cons]
      refine ⟨⟨fun hin => h.1 (hp ▸ hsub _ hin), hnd⟩, fun k hk => ?_⟩
      rcases List.mem_cons.mp hk with rfl | hk
      · rw [hp]; exact List.mem_cons_self _ _
      · exact List.mem_cons_of_mem _ (hsub k hk)

theorem keys_foldl_addOldParam_nodup (old acc : List TuningState_Parameter)
    (h : (acc.map paramKey).Nodup) : ((old.foldl addOldParam acc).map paramKey).Nodup := by
  induction old generalizing acc with
  | nil => exact h
  | cons op ops ih =>
    rw [List.foldl_cons]
    apply ih
    unfold addOldParam
    split
    · exact h
    · rename_i hany
      rw [List.map_append, List.map_cons, List.map_nil]
      apply List.Nodup.append h (List.nodup_singleton _)
      intro k hk hk'
      rw [List.mem_singleton] at hk'
      subst hk'
      apply hany
      obtain ⟨q, hq, hqk⟩ := List.mem_map.mp hk
      exact List.any_eq_true.mpr ⟨q, hq, by simpa [paramKey] using hqk.symm⟩

/-- With pairwise distinct declared option names the result of `GetTuningState` has pairwise
distinct keys, whatever is stored. -/
theorem GetTuningState_keys_nodup (now : Int) (state : State)
    (h : (optionNames state.Services).Nodup) :
    ((GetTuningState now state).DynamicParameters.map paramKey).Nodup := by
  rw [GetTuningState_parameters]
  exact keys_foldl_addOldParam_nodup _ _ (keys_contributions_nodup _ _ h).1

/-- C16 (the code at the failing input): the registration of `twinService`, which declares
the option `gain` twice, succeeds from the start state, and the tuning request and the tuning
upsert that follow are answered with two parameters of key `gain`. -/
theorem tuning_reply_repeats_key :
    (handleMessage Char.toLower allAlive 10 none (.Service twinService) startState).1
        = .ok (.Service (stamped 10 twinService))
      ∧ (handleMessage Char.toLower allAlive 11 none .TuningStateRequest
          (handleMessage Char.toLower allAlive 10 none (.Service twinService) startState).2).1
        = .ok (.TuningState
            { Timestamp := 11, DynamicParameters := [.Int_ "gain" 3, .Int_ "gain" 3] })
      ∧ (handleMessage Char.toLower allAlive 12 none
          (.TuningState { Timestamp := 0, DynamicParameters := [] })
          (handleMessage Char.toLower allAlive 10 none (.Service twinService) startState).2).1
        = .ok (.TuningState
            { Timestamp := 12, DynamicParameters := [.Int_ "gain" 3, .Int_ "gain" 3] }) :=
  ⟨rfl, rfl, rfl⟩

/-! ## C19: registrations of distinct services -/

theorem handleMessage_registration_ok (fold : Char → Char) (alive : Int → Bool) (now : Int)
    (sendErr : Option String) (msg res : Service) (state : State)
    (h : (handleServiceRegistration fold alive now sendErr msg state).1 = .ok res) :
    (handleMessage fold alive now sendErr (.Service msg) state).1 = .ok (.Service res) := by
  unfold handleMessage
  simp only
  rcases hh : handleServiceRegistration fold alive now sendErr msg state with ⟨r, st⟩
  rw [hh] at h
  simp only at h
  subst h
  rfl

/-- A registration whose service is distinct from every present service succeeds. -/
theorem handleServiceRegistration_of_distinct (fold : Char → Char) (alive : Int → Bool)
    (now : Int) (sendErr : Option String) (msg : Service) (state : State)
    (h : ∀ s ∈ state.Services, distinct fold s msg) :
    (handleServiceRegistration fold alive now sendErr msg state).1 = .ok (stamped now msg)
      ∧ (handleServiceRegistration fold alive now sendErr msg state).2.Services
          = state.Services.filter (survives alive) ++ [stamped now msg] := by
  have hsub : ∀ s ∈ (UpdateServiceStatusses alive state).Services, s ∈ state.Services := by
    intro s hs
    rw [UpdateServiceStatusses_services] at hs
    exact List.mem_of_mem_filter hs
  have hname : ¬ nameTaken fold alive (UpdateServiceStatusses alive state).Services
      msg.Identifier.Name := by
    rintro ⟨s, hs, he, _⟩
    have := (h s (hsub s hs)).1
    rw [he] at this
    cases this
  have hopt : ¬ optionTaken alive (UpdateServiceStatusses alive state).Services
      msg.Options := by
    rintro ⟨o, ho, s, hs, _, o', ho', hk⟩
    exact (h s (hsub s hs)).2 o' ho' o ho hk
  rcases handleServiceRegistration_cases fold alive now sendErr msg state with
    ⟨hn, _⟩ | ⟨_, ho, _⟩ | ⟨_, _, he, hst⟩
  · exact absurd hn hname
  · exact absurd ho hopt
  · refine ⟨he, ?_⟩
    rw [hst]
    unfold AddService
    simp only
    rw [UpdateServiceStatusses_services]

theorem registered_identifier (events : List Event) (r : Service) (hr : r ∈ registered events) :
    ∃ m ∈ registrations events, r.Identifier = m.Identifier := by
  induction events with
  | nil => cases hr
  | cons e es ih =>
    cases e with
    | sweep alive =>
      obtain ⟨m, hm, h⟩ := ih (by simpa [registered] using hr)
      exact ⟨m, by simpa [registrations] using hm, h⟩
    | request env msg =>
      cases msg with
      | Service msg =>
        have hr' : r = { msg with Status := ServiceStatus.REGISTERED, RegisteredAt := env.now }
            ∨ r ∈ registered es := by
          simpa [registered] using hr
        rcases hr' with rfl | hr'
        · exact ⟨msg, by simp [registrations], rfl⟩
        · obtain ⟨m, hm, h⟩ := ih hr'
          exact ⟨m, by
            have : m ∈ registrations es := hm
            simp only [registrations, List.filterMap_cons]
            exact List.mem_cons_of_mem _ this, h⟩
      | _ =>
        obtain ⟨m, hm, h⟩ := ih (by simpa [registered] using hr)
        exact ⟨m, by simpa [registrations] using hm, h⟩

/-- Registrations of services distinct from one another and from the present ones, with
processes alive throughout, all succeed, and the registered services as well as the services
of `kept` are still in the registry at the end. -/
theorem run_registrations (fold : Char → Char) (events : List Event) :
    ∀ (state : State) (kept : List Service),
      (∀ e ∈ events, e.isRegistrationOrSweep = true) →
      (∀ m ∈ registrations events, ∀ e ∈ events, e.alive m.Identifier.Pid = true) →
      (registrations events).Pairwise (distinct fold) →
      (∀ s ∈ state.Services, ∀ m ∈ registrations events, distinct fold s m) →
      (∀ k ∈ kept, k ∈ state.Services ∧ k.Status = .REGISTERED
        ∧ ∀ e ∈ events, e.alive k.Identifier.Pid = true) →
      allSucceed fold state events
        ∧ ∀ k ∈ kept ++ registered events,
            k ∈ (run fold state events).Services ∧ k.Status = .REGISTERED := by
  induction events with
  | nil =>
    intro state kept _ _ _ _ hkept
    refine ⟨trivial, fun k hk => ?_⟩
    have hk' : k ∈ kept := by simpa [registered] using hk
    exact ⟨(hkept k hk').1, (hkept k hk').2.1⟩
  | cons e es ih =>
    intro state kept hkind halive hpair hpresent hkept
    have hkind' : ∀ x ∈ es, x.isRegistrationOrSweep = true :=
      fun x hx => hkind x (List.mem_cons_of_mem _ hx)
    have hsurv : ∀ k ∈ kept, k ∈ state.Services.filter (survives e.alive) := by
      intro k hk
      obtain ⟨hin, hst, hal⟩ := hkept k hk
      rw [List.mem_filter]
      refine ⟨hin, ?_⟩
      unfold survives
      simp [hal e (List.mem_cons_self _ _), hst]
    cases e with
    | sweep alive =>
      have hregs : registrations (Event.sweep alive :: es) = registrations es := rfl
      have hregd : registered (Event.sweep alive :: es) = registered es := rfl
      rw [hregs] at halive hpair hpresent
      rw [hregd]
      have hstep : (step fold state (Event.sweep alive)).Services
          = state.Services.filter (survives alive) := UpdateServiceStatusses_services alive state
      obtain ⟨hs, hm⟩ := ih (step fold state (Event.sweep alive)) kept hkind'
        (fun m hm x hx => halive m hm x (List.mem_cons_of_mem _ hx)) hpair
        (fun s hs m hm => hpresent s (by rw [hstep] at hs; exact List.mem_of_mem_filter hs) m hm)
        (fun k hk => ⟨by rw [hstep]; exact hsurv k hk, (hkept k hk).2.1,
          fun x hx => (hkept k hk).2.2 x (List.mem_cons_of_mem _ hx)⟩)
      exact ⟨⟨trivial, hs⟩, hm⟩
    | request env msg =>
      cases msg with
      | Service msg =>
        have hregs : registrations (Event.request env (.Service msg) :: es)
            = msg :: registrations es := rfl
        have hregd : registered (Event.request env (.Service msg) :: es)
            = stamped env.now msg :: registered es := rfl
        rw [hregs] at halive hpair hpresent
        rw [hregd]
        rw [List.pairwise_cons] at hpair
        obtain ⟨hok, hsv⟩ := handleServiceRegistration_of_distinct fold env.alive env.now
          env.sendErr msg state (fun s hs => hpresent s hs msg (List.mem_cons_self _ _))
        have hstep : (step fold state (Event.request env (.Service msg))).Services
            = state.Services.filter (survives env.alive) ++ [stamped env.now msg] := by
          unfold step
          simp only
          rw [handleMessage_state]
          exact hsv
        obtain ⟨hs, hm⟩ := ih (step fold state (Event.request env (.Service msg)))
          (kept ++ [stamped env.now msg]) hkind'
          (fun m hm x hx =>
            halive m (List.mem_cons_of_mem _ hm) x (List.mem_cons_of_mem _ hx)) hpair.2
          (fun s hs m hm => by
            rw [hstep] at hs
            rcases List.mem_append.mp hs with hs | hs
            · exact hpresent s (List.mem_of_mem_filter hs) m (List.mem_cons_of_mem _ hm)
            · rw [List.mem_singleton] at hs
              subst hs
              exact hpair.1 m hm)
          (fun k hk => by
            rcases List.mem_append.mp hk with hk | hk
            · exact ⟨by rw [hstep]; exact List.mem_append_left _ (hsurv k hk), (hkept k hk).2.1,
                fun x hx => (hkept k hk).2.2 x (List.mem_cons_of_mem _ hx)⟩
            · rw [List.mem_singleton] at hk
              subst hk
              exact ⟨by rw [hstep]; exact List.mem_append_right _ (List.mem_singleton.mpr rfl),
                rfl, fun x hx =>
                  halive msg (List.mem_cons_self _ _) x (List.mem_cons_of_mem _ hx)⟩)
        refine ⟨⟨⟨_, handleMessage_registration_ok fold env.alive env.now env.sendErr msg _
          state hok⟩, hs⟩, fun k hk => ?_⟩
        apply hm k
        rw [List.append_assoc]
        exact hk
      | ServiceInformationRequest r =>
        exact absurd (hkind _ (List.mem_cons_self _ _)) (by simp [Event.isRegistrationOrSweep])
      | ServiceStatusUpdate a b =>
        exact absurd (hkind _ (List.mem_cons_self _ _)) (by simp [Event.isRegistrationOrSweep])
      | TuningState ts =>
        exact absurd (hkind _ (List.mem_cons_self _ _)) (by simp [Event.isRegistrationOrSweep])
      | TuningStateRequest =>
        exact absurd (hkind _ (List.mem_cons_self _ _)) (by simp [Event.isRegistrationOrSweep])
      | ServiceListRequest =>
        exact absurd (hkind _ (List.mem_cons_self _ _)) (by simp [Event.isRegistrationOrSweep])
      | ServiceOrder =>
        exact absurd (hkind _ (List.mem_cons_self _ _)) (by simp [Event.isRegistrationOrSweep])
      | unsupported =>
        exact absurd (hkind _ (List.mem_cons_self _ _)) (by simp [Event.isRegistrationOrSweep])

/-- C19 (as stated, refuted): in `gainClash` the two registration requests have names that
differ ignoring case and differ from the name present, and every process is alive; the
second registration fails, because its option `gain` is declared by the first service. -/
theorem registration_with_distinct_name_fails :
    (registrations gainClash).Pairwise
        (fun a b => EqualFold Char.toLower a.Identifier.Name b.Identifier.Name = false)
      ∧ (∀ s ∈ startState.Services, ∀ m ∈ registrations gainClash,
          EqualFold Char.toLower s.Identifier.Name m.Identifier.Name = false)
      ∧ (∀ e ∈ gainClash, ∀ m ∈ registrations gainClash, e.alive m.Identifier.Pid = true)
      ∧ (handleMessage Char.toLower allAlive 20 none
          (.Service (mkService "bob" 2 [gainOption] 0)) aliceState).1
          = .error (.optionInUse "bob" "gain" "alice" 1)
      ∧ ¬ allSucceed Char.toLower startState gainClash := by
  refine ⟨by decide, by decide, by decide, rfl, ?_⟩
  rintro ⟨_, ⟨res, hres⟩, _⟩
  have herr : (handleMessage Char.toLower allAlive 20 none
      (.Service (mkService "bob" 2 [gainOption] 0)) aliceState).1
      = .error (.optionInUse "bob" "gain" "alice" 1) := rfl
  have hres' : (handleMessage Char.toLower allAlive 20 none
      (.Service (mkService "bob" 2 [gainOption] 0)) aliceState).1 = .ok res := hres
  rw [herr] at hres'
  cases hres'

/-- C19 (amended): for every sequence of registration requests whose services have names that
are pairwise distinct ignoring case and option names that are pairwise disjoint, both also
with respect to the services already present, and whose processes the oracle reports alive
throughout, handled one at a time and interleaved with any number of sweep steps, every
registration succeeds, and a subsequent service-list request succeeds and returns a list
containing every one of the registered services. -/
theorem registrations_all_listed (fold : Char → Char) (state : State) (events : List Event)
    (final : Env)
    (hkind : ∀ e ∈ events, e.isRegistrationOrSweep = true)
    (halive : ∀ m ∈ registrations events,
      (∀ e ∈ events, e.alive m.Identifier.Pid = true) ∧ final.alive m.Identifier.Pid = true)
    (hpair : (registrations events).Pairwise (distinct fold))
    (hpresent : ∀ s ∈ state.Services, ∀ m ∈ registrations events, distinct fold s m) :
    allSucceed fold state events
      ∧ ∃ l, (handleMessage fold final.alive final.now final.sendErr .ServiceListRequest
            (run fold state events)).1 = .ok (.ServiceList l)
          ∧ ∀ r ∈ registered events, r ∈ l := by
  obtain ⟨hs, hm⟩ := run_registrations fold events state []
    hkind (fun m hm => (halive m hm).1) hpair hpresent (fun k hk => by cases hk)
  refine ⟨hs, (UpdateServiceStatusses final.alive (run fold state events)).Services, rfl, ?_⟩
  intro r hr
  obtain ⟨hin, hst⟩ := hm r (by simpa using hr)
  obtain ⟨m, hmr, hid⟩ := registered_identifier events r hr
  rw [UpdateServiceStatusses_services, List.mem_filter]
  refine ⟨hin, ?_⟩
  unfold survives
  rw [hid]
  simp [(halive m hmr).2, hst]

/-- C19 (amended), at `twoRegistrations` from the start state: both registrations succeed and
the list request returns `alice` and `bob`. -/
theorem registrations_all_listed_witness :
    allSucceed Char.toLower startState twoRegistrations
      ∧ ∃ l, (handleMessage Char.toLower allAlive 30 none .ServiceListRequest
            (run Char.toLower startState twoRegistrations)).1 = .ok (.ServiceList l)
          ∧ ∀ r ∈ registered twoRegistrations, r ∈ l :=
  registrations_all_listed Char.toLower startState twoRegistrations
    { alive := allAlive, now := 30, sendErr := none }
    (by decide) (by decide) (by decide) (by decide)

/-! ## C21: the broadcast -/

/-- C21: `BroadcastMessage` with no publisher configured returns no error; and for every state
and request, the result (response or error) and the resulting state of
`handleServiceRegistration` and of `handleTuningStateUpsert`, hence of the two arms of
`handleMessage` that call them, are the same whatever the broadcast returns, no error or an
error. -/
theorem broadcast_outcome_is_ignored (fold : Char → Char) (alive : Int → Bool) (now : Int)
    (msg : Service) (ts : TuningState) (state : State) (sendErr sendErr' : Option String) :
    BroadcastMessage none sendErr = none
      ∧ handleServiceRegistration fold alive now sendErr msg state
          = handleServiceRegistration fold alive now sendErr' msg state
      ∧ handleTuningStateUpsert now sendErr ts state
          = handleTuningStateUpsert now sendErr' ts state
      ∧ handleMessage fold alive now sendErr (.Service msg) state
          = handleMessage fold alive now sendErr' (.Service msg) state
      ∧ handleMessage fold alive now sendErr (.TuningState ts) state
          = handleMessage fold alive now sendErr' (.TuningState ts) state := by
  have hreg : handleServiceRegistration fold alive now sendErr msg state
      = handleServiceRegistration fold alive now sendErr' msg state := rfl
  have hups : handleTuningStateUpsert now sendErr ts state
      = handleTuningStateUpsert now sendErr' ts state := rfl
  refine ⟨rfl, hreg, hups, ?_, ?_⟩
  · unfold handleMessage
    simp only [hreg]
  · unfold handleMessage
    simp only [hups]

/-! ## C23: an upsert takes effect at once -/

theorem uint64_of_nonneg {x : Int} (h0 : 0 ≤ x) (h1 : x < 2 ^ 64) : (uint64 x : Int) = x := by
  unfold uint64
  rw [Int.emod_eq_of_lt h0 h1]
  exact Int.toNat_of_nonneg h0

theorem find?_of_mem_nodup_keys {l : List TuningState_Parameter}
    (hnd : (l.map paramKey).Nodup) {p : TuningState_Parameter} (hp : p ∈ l) :
    l.find? (fun q => paramKey q == paramKey p) = some p := by
  rcases Option.eq_none_or_eq_some (l.find? (fun q => paramKey q == paramKey p)) with h | ⟨q, h⟩
  · rw [List.find?_eq_none] at h
    exact absurd (by simp) (h p hp)
  · have hq := List.mem_of_find?_eq_some h
    have hk : paramKey q = paramKey p := by
      have := List.find?_some h
      simpa using this
    rw [h, List.inj_on_of_nodup_map hnd hq hp hk]

/-- C23: for every registry in which every service's `RegisteredAt` is not later than the
current time (both as the code converts them, `uint64`) and option names are pairwise
distinct, and for every new tuning state with pairwise distinct keys, the only parameter with
the key of a mutable declared option `o` in the effective state `UpdateTuningState` returns
is the parameter of the new state with the key and the type of `o`, not the option's
default. -/
theorem UpdateTuningState_takes_effect (now : Int) (state : State) (ts : TuningState)
    (hreg : ∀ s ∈ state.Services, uint64 s.RegisteredAt ≤ uint64 now)
    (hnames : (optionNames state.Services).Nodup)
    (hkeys : (ts.DynamicParameters.map paramKey).Nodup)
    (s : Service) (hs : s ∈ state.Services) (o : ServiceOption) (ho : o ∈ s.Options)
    (hm : o.Mutable = true)
    (p : TuningState_Parameter) (hp : p ∈ ts.DynamicParameters)
    (hkey : paramKey p = o.Name) (hty : paramType p = OptionTypeToString o.Type_) :
    (UpdateTuningState now state ts).1.DynamicParameters.filter
      (fun q => paramKey q == o.Name) = [p] := by
  obtain ⟨hstore, hret⟩ := UpdateTuningState_eq now state ts
  have hdecl : (s, o) ∈ declared state.Services := mem_declared.mpr ⟨hs, ho⟩
  have hsv : (UpdateTuningState now state ts).2.Services = state.Services := rfl
  have hd : (declared (UpdateTuningState now state ts).2.Services).filter
      (fun e => e.2.Name == o.Name) = [(s, o)] := by
    rw [hsv]
    exact filter_name_of_nodup hnames hdecl
  -- the parameter passes the filter of the upsert
  have hvalid : ∀ d ∈ declared state.Services,
      optionMismatchesParameter (some d.2) (some p) = false := by
    intro d hdmem
    rw [Bool.eq_false_iff, Ne, optionMismatchesParameter_iff]
    rintro ⟨hk, _, hne⟩
    have hdo : d = (s, o) :=
      List.inj_on_of_nodup_map hnames hdmem hdecl (hk.symm.trans hkey)
    rw [hdo] at hne
    exact hne hty
  have hl : (UpdateTuningState now state ts).2.TuningState
      = some (TuningState.mk (uint64 now)
          (ts.DynamicParameters.filter (fun q =>
            !(declared state.Services).any (fun d =>
              optionMismatchesParameter (some d.2) (some q))))) := by
    rw [hstore]
  have hpin : p ∈ ts.DynamicParameters.filter (fun q =>
      !(declared state.Services).any (fun d =>
        optionMismatchesParameter (some d.2) (some q))) := by
    rw [List.mem_filter]
    refine ⟨hp, ?_⟩
    simp only [Bool.not_eq_true', List.any_eq_false]
    intro d hdmem
    rw [hvalid d hdmem]
    exact Bool.false_ne_true
  have hnd : ((ts.DynamicParameters.filter (fun q =>
      !(declared state.Services).any (fun d =>
        optionMismatchesParameter (some d.2) (some q)))).map paramKey).Nodup :=
    (List.Nodup.sublist ((List.filter_sublist _).map paramKey) hkeys)
  have hf := find?_of_mem_nodup_keys hnd hpin
  rw [hkey] at hf
  obtain ⟨c, _, hres⟩ := GetTuningState_mutable_stored now (UpdateTuningState now state ts).2
    s o _ p hd hm hl hf hty
  rw [hret, hres, if_neg (Nat.not_lt.mpr (hreg s hs))]

theorem uint64_le_of_le {a b : Int} (h0 : 0 ≤ a) (hab : a ≤ b) (hb : b < 2 ^ 64) :
    uint64 a ≤ uint64 b := by
  have ha := uint64_of_nonneg h0 (lt_of_le_of_lt hab hb)
  have hb' := uint64_of_nonneg (le_trans h0 hab) hb
  omega

/-- C23, at `mixedState` (services registered at 5 and 6) and the upsert of `speed=7` at time
10: the effective state holds `speed=7` and not the default `speed=1`. -/
theorem UpdateTuningState_takes_effect_witness :
    (UpdateTuningState 10 mixedState
        { Timestamp := 0, DynamicParameters := [.Int_ "speed" 7] }).1.DynamicParameters.filter
      (fun q => paramKey q == "speed") = [.Int_ "speed" 7] :=
  UpdateTuningState_takes_effect 10 mixedState
    { Timestamp := 0, DynamicParameters := [.Int_ "speed" 7] }
    (by decide) (by decide) (by decide) motor (by decide) speedOption (by decide) rfl
    (.Int_ "speed" 7) (by decide) rfl rfl

/-! ## C24: what an information request changes -/

/-- C24: an information request for a present service (the first whose name matches ignoring
case) overwrites that service's stored status with the derived status, `STOPPED` when its
process is not alive and the stored status otherwise, and changes nothing else: the other
services, the order of the registry, the stored tuning state and the publisher are as
before; for a name with no match, and for a request without requested service, the state
is unchanged. -/
theorem handleServiceInformationRequest_effect (fold : Char → Char) (alive : Int → Bool)
    (requested : ServiceIdentifier) (state : State) :
    (∀ (pre post : List Service) (s : Service), state.Services = pre ++ s :: post →
        (∀ x ∈ pre, EqualFold fold x.Identifier.Name requested.Name = false) →
        EqualFold fold s.Identifier.Name requested.Name = true →
        (handleServiceInformationRequest fold alive (some requested) state).2
          = { state with
              Services := pre ++
                { s with Status := if alive s.Identifier.Pid = true then s.Status else .STOPPED }
                  :: post })
      ∧ ((∀ s ∈ state.Services, EqualFold fold s.Identifier.Name requested.Name = false) →
          (handleServiceInformationRequest fold alive (some requested) state).2 = state)
      ∧ (handleServiceInformationRequest fold alive none state).2 = state
      ∧ (∀ (now : Int) (sendErr : Option String) (req : Option ServiceIdentifier),
          (handleMessage fold alive now sendErr (.ServiceInformationRequest req) state).2
            = (handleServiceInformationRequest fold alive req state).2) := by
  refine ⟨?_, ?_, rfl, fun now sendErr req => rfl⟩
  · intro pre post s hsplit hpre hs
    obtain ⟨hfind, hrefresh⟩ :=
      find?_refreshFirst_split fold alive requested.Name pre post s hpre hs
    have hg : GetService fold state requested.Name = some s := by
      unfold GetService
      rw [hsplit]
      exact hfind
    unfold handleServiceInformationRequest
    simp only [hg]
    rw [hsplit, hrefresh]
    unfold ServiceStatus_
    cases alive s.Identifier.Pid <;> simp
  · intro hnone
    have hg : GetService fold state requested.Name = none := by
      unfold GetService
      rw [List.find?_eq_none]
      intro x hx
      rw [hnone x hx]
      exact Bool.false_ne_true
    unfold handleServiceInformationRequest
    simp only [hg]

/-- C24, at `aliceState` while pid 1 is dead: the information request for `alice` stores the
status `STOPPED` for it and leaves the core as it was. -/
theorem handleServiceInformationRequest_effect_witness :
    (handleServiceInformationRequest Char.toLower firstDead
        (some { Name := "alice", Pid := 1 }) aliceState).2
      = { aliceState with
          Services := startState.Services ++
            [{ stamped 10 (mkService "alice" 1 [gainOption] 0) with
               Status := ServiceStatus.STOPPED }] } :=
  (handleServiceInformationRequest_effect Char.toLower firstDead { Name := "alice", Pid := 1 }
    aliceState).1 startState.Services [] _ (by decide) (by decide) (by decide)

/-! ## C14: information requests -/

/-- The answers of `handleServiceInformationRequest`: never an error; the `NOT_REGISTERED`
sentinel when no name matches; the first matching service with the derived status; and the
registered service itself, with the status `REGISTERED`, right after its registration. -/
theorem handleServiceInformationRequest_answers (fold : Char → Char) (alive : Int → Bool)
    (requested : ServiceIdentifier) (state : State) :
    (∀ (now : Int) (sendErr : Option String) (req : Option ServiceIdentifier),
        (handleMessage fold alive now sendErr (.ServiceInformationRequest req) state).1
          = .ok (.Service (handleServiceInformationRequest fold alive req state).1))
      ∧ ((∀ s ∈ state.Services, EqualFold fold s.Identifier.Name requested.Name = false) →
          (handleServiceInformationRequest fold alive (some requested) state).1
            = { Identifier := requested, Endpoints := [], Options := [],
                Status := .NOT_REGISTERED, RegisteredAt := 0 })
      ∧ (∀ (pre post : List Service) (s : Service), state.Services = pre ++ s :: post →
          (∀ x ∈ pre, EqualFold fold x.Identifier.Name requested.Name = false) →
          EqualFold fold s.Identifier.Name requested.Name = true →
          (handleServiceInformationRequest fold alive (some requested) state).1
            = { s with Status := if alive s.Identifier.Pid = true then s.Status else .STOPPED })
      ∧ (∀ (registrar : Int → Bool) (now : Int) (sendErr : Option String) (msg v : Service),
          (handleServiceRegistration fold registrar now sendErr msg state).1 = .ok v →
          alive msg.Identifier.Pid = true →
          v.Status = .REGISTERED
            ∧ (handleServiceInformationRequest fold alive (some msg.Identifier)
                (handleServiceRegistration fold registrar now sendErr msg state).2).1 = v) := by
  refine ⟨fun now sendErr req => rfl, ?_, ?_, ?_⟩
  · intro hnone
    have hg : GetService fold state requested.Name = none := by
      unfold GetService
      rw [List.find?_eq_none]
      intro x hx
      rw [hnone x hx]
      exact Bool.false_ne_true
    unfold handleServiceInformationRequest
    simp only [hg]
  · intro pre post s hsplit hpre hs
    have hg : GetService fold state requested.Name = some s := by
      unfold GetService
      rw [hsplit]
      exact (find?_refreshFirst_split fold alive requested.Name pre post s hpre hs).1
    unfold handleServiceInformationRequest
    simp only [hg]
    unfold ServiceStatus_
    cases alive s.Identifier.Pid <;> simp
  · intro registrar now sendErr msg v hok hlive
    rcases handleServiceRegistration_cases fold registrar now sendErr msg state with
      ⟨_, ⟨pid, _, he⟩, _⟩ | ⟨_, _, ⟨a, b, c, he⟩, _⟩ | ⟨hname, _, he, hst⟩
    · rw [he] at hok; cases hok
    · rw [he] at hok; cases hok
    · rw [he] at hok
      simp only [Except.ok.injEq] at hok
      subst hok
      refine ⟨rfl, ?_⟩
      have hpre : ∀ x ∈ (UpdateServiceStatusses registrar state).Services,
          EqualFold fold x.Identifier.Name msg.Identifier.Name = false := by
        intro x hx
        by_contra hne
        rw [Bool.not_eq_false] at hne
        exact hname ⟨x, hx, hne, alive_of_mem_swept hx⟩
      have hsv : (handleServiceRegistration fold registrar now sendErr msg state).2.Services
          = (UpdateServiceStatusses registrar state).Services ++ stamped now msg :: [] := by
        rw [hst]; rfl
      have hg : GetService fold (handleServiceRegistration fold registrar now sendErr msg state).2
          msg.Identifier.Name = some (stamped now msg) := by
        unfold GetService
        rw [hsv]
        exact (find?_refreshFirst_split fold alive msg.Identifier.Name _ [] (stamped now msg)
          hpre (EqualFold_refl fold _)).1
      unfold handleServiceInformationRequest
      simp only [hg]
      unfold ServiceStatus_
      have hlive' : alive (stamped now msg).Identifier.Pid = true := hlive
      simp [hlive']


theorem refreshFirst_eq_self (fold : Char → Char) (alive : Int → Bool) (name : String)
    (l : List Service)
    (h : ∀ s, l.find? (fun x => EqualFold fold x.Identifier.Name name) = some s →
      alive s.Identifier.Pid = true) :
    refreshFirst fold alive name l = l := by
  induction l with
  | nil => rfl
  | cons x rest ih =>
    unfold refreshFirst
    by_cases hx : EqualFold fold x.Identifier.Name name = true
    · rw [if_pos hx]
      have ha : alive x.Identifier.Pid = true := h x (by simp [List.find?_cons, hx])
      unfold ServiceStatus_
      simp [ha]
    · rw [if_neg hx]
      have hx' : EqualFold fold x.Identifier.Name name = false := by simpa using hx
      rw [ih (fun s hs => h s (by simpa [List.find?_cons, hx'] using hs))]

/-- An information request that finds the process of the service it matches alive leaves the
state as it was. -/
theorem handleServiceInformationRequest_keeps_state (fold : Char → Char) (alive : Int → Bool)
    (requested : ServiceIdentifier) (state : State)
    (h : ∀ s, GetService fold state requested.Name = some s →
      alive s.Identifier.Pid = true) :
    (handleServiceInformationRequest fold alive (some requested) state).2 = state := by
  rcases Option.eq_none_or_eq_some (GetService fold state requested.Name) with hg | ⟨s, hg⟩
  · unfold handleServiceInformationRequest
    simp only [hg]
  · unfold handleServiceInformationRequest
    simp only [hg]
    rw [refreshFirst_eq_self fold alive requested.Name state.Services (fun t ht => h t ht)]

/-- One event of an undisturbed run stores no status but `REGISTERED`, on the service a
registration appends. -/
theorem step_undisturbed_statuses (fold : Char → Char) (origin : List Service) (state : State)
    (e : Event) (es : List Event) (hq : undisturbed fold state (e :: es))
    (h : ∀ s ∈ state.Services, s ∈ origin ∨ s.Status = .REGISTERED) :
    ∀ s ∈ (step fold state e).Services, s ∈ origin ∨ s.Status = .REGISTERED := by
  have hsweep : ∀ alive, ∀ s ∈ (UpdateServiceStatusses alive state).Services,
      s ∈ origin ∨ s.Status = .REGISTERED := by
    intro alive s hs
    rw [UpdateServiceStatusses_services] at hs
    exact h s (List.mem_of_mem_filter hs)
  cases e with
  | sweep alive => exact hsweep alive
  | request env m =>
    unfold step
    simp only
    rw [handleMessage_state]
    cases m with
    | Service msg =>
      simp only
      rcases handleServiceRegistration_cases fold env.alive env.now env.sendErr msg state with
        ⟨_, _, hst⟩ | ⟨_, _, _, hst⟩ | ⟨_, _, _, hst⟩
      · rw [hst]; exact hsweep env.alive
      · rw [hst]; exact hsweep env.alive
      · rw [hst]
        intro s hs
        unfold AddService at hs
        rcases List.mem_append.mp hs with hs | hs
        · exact hsweep env.alive s hs
        · rw [List.mem_singleton] at hs
          subst hs
          exact Or.inr rfl
    | ServiceInformationRequest requested =>
      simp only
      cases requested with
      | none => exact h
      | some r =>
        rw [handleServiceInformationRequest_keeps_state fold env.alive r state hq.1]
        exact h
    | ServiceStatusUpdate service status => exact absurd hq.1 id
    | TuningState ts => exact h
    | TuningStateRequest => exact h
    | ServiceListRequest => exact hsweep env.alive
    | ServiceOrder => exact h
    | unsupported => exact h

theorem run_undisturbed_statuses (fold : Char → Char) (origin : List Service)
    (events : List Event) :
    ∀ state : State, undisturbed fold state events →
      (∀ s ∈ state.Services, s ∈ origin ∨ s.Status = .REGISTERED) →
      ∀ s ∈ (run fold state events).Services, s ∈ origin ∨ s.Status = .REGISTERED := by
  induction events with
  | nil => intro state _ h; exact h
  | cons e es ih =>
    intro state hq h
    exact ih (step fold state e) hq.2 (step_undisturbed_statuses fold origin state e es hq h)

/-- C14 (as stated, refuted): after the registration of `alice`, an information request handled
while pid 1 is reported dead stores `STOPPED`; a second information request, handled while
pid 1 is reported alive, is answered with the status `STOPPED`, not `REGISTERED`, although
no status update arrived. -/
theorem information_request_answers_stopped_for_live_process :
    (handleServiceInformationRequest Char.toLower firstDead
        (some { Name := "alice", Pid := 1 }) aliceState).2.Services
        = startState.Services ++
          [{ stamped 10 (mkService "alice" 1 [gainOption] 0) with
             Status := ServiceStatus.STOPPED }]
      ∧ allAlive 1 = true
      ∧ (handleServiceInformationRequest Char.toLower allAlive
          (some { Name := "alice", Pid := 1 })
          (handleServiceInformationRequest Char.toLower firstDead
            (some { Name := "alice", Pid := 1 }) aliceState).2).1
        = { stamped 10 (mkService "alice" 1 [gainOption] 0) with
            Status := ServiceStatus.STOPPED } := by
  decide

/-- C14 (amended): `handleServiceInformationRequest` never fails: every information request is
answered with a service and no error; for a requested name with no match ignoring case in
the registry the answer is a sentinel carrying the requested identifier and the status
`NOT_REGISTERED`; for a matching service (the first in the registry) the answer is that
service with the derived status, `STOPPED` if its process is not alive and its stored status
otherwise. The stored status of a service a registration stored is `REGISTERED` as long as
no status update arrives and no information request finds the process of the service it
matches not alive: after every such run, every service of the registry is as it was before
the run or has the stored status `REGISTERED`, and an information request matching a service
stored during the run, its process alive, is answered with that service and the status
`REGISTERED`. -/
theorem handleServiceInformationRequest_spec (fold : Char → Char) (alive : Int → Bool)
    (requested : ServiceIdentifier) (state : State) :
    (∀ (now : Int) (sendErr : Option String) (req : Option ServiceIdentifier),
        (handleMessage fold alive now sendErr (.ServiceInformationRequest req) state).1
          = .ok (.Service (handleServiceInformationRequest fold alive req state).1))
      ∧ ((∀ s ∈ state.Services, EqualFold fold s.Identifier.Name requested.Name = false) →
          (handleServiceInformationRequest fold alive (some requested) state).1
            = { Identifier := requested, Endpoints := [], Options := [],
                Status := .NOT_REGISTERED, RegisteredAt := 0 })
      ∧ (∀ (pre post : List Service) (s : Service), state.Services = pre ++ s :: post →
          (∀ x ∈ pre, EqualFold fold x.Identifier.Name requested.Name = false) →
          EqualFold fold s.Identifier.Name requested.Name = true →
          (handleServiceInformationRequest fold alive (some requested) state).1
            = { s with Status := if alive s.Identifier.Pid = true then s.Status else .STOPPED })
      ∧ (∀ events : List Event, undisturbed fold state events →
          (∀ s ∈ (run fold state events).Services,
            s ∈ state.Services ∨ s.Status = .REGISTERED)
          ∧ (∀ (pre post : List Service) (s : Service),
              (run fold state events).Services = pre ++ s :: post →
              (∀ x ∈ pre, EqualFold fold x.Identifier.Name requested.Name = false) →
              EqualFold fold s.Identifier.Name requested.Name = true →
              s ∉ state.Services →
              alive s.Identifier.Pid = true →
              s.Status = .REGISTERED
                ∧ (handleServiceInformationRequest fold alive (some requested)
                    (run fold state events)).1 = s))
      ∧ (∀ (registrar : Int → Bool) (now : Int) (sendErr : Option String) (msg v : Service),
          (handleServiceRegistration fold registrar now sendErr msg state).1 = .ok v →
          alive msg.Identifier.Pid = true →
          v.Status = .REGISTERED
            ∧ (handleServiceInformationRequest fold alive (some msg.Identifier)
                (handleServiceRegistration fold registrar now sendErr msg state).2).1 = v) := by
  obtain ⟨h1, h2, h3, h4⟩ := handleServiceInformationRequest_answers fold alive requested state
  refine ⟨h1, h2, h3, fun events hq => ?_, h4⟩
  have hinv := run_undisturbed_statuses fold state.Services events state hq
    (fun s hs => Or.inl hs)
  refine ⟨hinv, fun pre post s hsplit hpre hs hnew hlive => ?_⟩
  have hst : s.Status = .REGISTERED := by
    rcases hinv s (by rw [hsplit]; exact List.mem_append_right _ (List.mem_cons_self _ _))
      with h | h
    · exact absurd h hnew
    · exact h
  refine ⟨hst, ?_⟩
  have := (handleServiceInformationRequest_answers fold alive requested
    (run fold state events)).2.2.1 pre post s hsplit hpre hs
  rw [this, if_pos hlive]

/-- C14 (amended), at `aliceState`: an information request for `ALICE` while pid 1 is dead is
answered with the service `alice` and the status `STOPPED`; and after the run
`twoRegistrations` from the start state every service but the core has the stored status
`REGISTERED`. -/
theorem handleServiceInformationRequest_spec_witness :
    (handleServiceInformationRequest Char.toLower firstDead
        (some { Name := "ALICE", Pid := 0 }) aliceState).1
        = { stamped 10 (mkService "alice" 1 [gainOption] 0) with
            Status := ServiceStatus.STOPPED }
      ∧ ∀ s ∈ (run Char.toLower startState twoRegistrations).Services,
          s ∈ startState.Services ∨ s.Status = .REGISTERED :=
  ⟨(handleServiceInformationRequest_spec Char.toLower firstDead { Name := "ALICE", Pid := 0 }
      aliceState).2.2.1 startState.Services [] _ (by decide) (by decide) (by decide),
    ((handleServiceInformationRequest_spec Char.toLower allAlive { Name := "alice", Pid := 1 }
      startState).2.2.2.1 twoRegistrations
      (by simp [undisturbed, twoRegistrations])).1⟩

end Core
